import Mathlib

/-!
Shallow embedding of the BlackHoleGPU Metal shaders (BlackHole.metal and the
scientific shader variant) together with the bloom post-processing kernels.
Metal `float` arithmetic is modelled by exact real arithmetic; `float2/3/4`
become structures of reals.  Divisions follow Lean's convention `x / 0 = 0`;
every evaluated code path below keeps denominators nonzero unless noted.
-/

namespace BlackHoleGPU

/-- Metal float2. -/
structure V2 where
  x : ℝ
  y : ℝ

/-- Metal float3. -/
structure V3 where
  x : ℝ
  y : ℝ
  z : ℝ

/-- Metal float4. -/
structure V4 where
  x : ℝ
  y : ℝ
  z : ℝ
  w : ℝ

noncomputable instance : Zero V3 := ⟨⟨0, 0, 0⟩⟩

noncomputable instance : Zero V4 := ⟨⟨0, 0, 0, 0⟩⟩

noncomputable instance : Add V3 := ⟨fun a b => ⟨a.x + b.x, a.y + b.y, a.z + b.z⟩⟩

noncomputable instance : Add V4 := ⟨fun a b => ⟨a.x + b.x, a.y + b.y, a.z + b.z, a.w + b.w⟩⟩

noncomputable instance : Sub V3 := ⟨fun a b => ⟨a.x - b.x, a.y - b.y, a.z - b.z⟩⟩

noncomputable instance : Sub V4 := ⟨fun a b => ⟨a.x - b.x, a.y - b.y, a.z - b.z, a.w - b.w⟩⟩

noncomputable instance : Neg V3 := ⟨fun a => ⟨-a.x, -a.y, -a.z⟩⟩

noncomputable instance : Neg V4 := ⟨fun a => ⟨-a.x, -a.y, -a.z, -a.w⟩⟩

noncomputable instance : SMul ℝ V3 := ⟨fun k a => ⟨k * a.x, k * a.y, k * a.z⟩⟩

noncomputable instance : SMul ℝ V4 := ⟨fun k a => ⟨k * a.x, k * a.y, k * a.z, k * a.w⟩⟩

noncomputable instance : Mul V3 := ⟨fun a b => ⟨a.x * b.x, a.y * b.y, a.z * b.z⟩⟩

noncomputable instance : Mul V4 := ⟨fun a b => ⟨a.x * b.x, a.y * b.y, a.z * b.z, a.w * b.w⟩⟩

noncomputable instance : Div V3 := ⟨fun a b => ⟨a.x / b.x, a.y / b.y, a.z / b.z⟩⟩

noncomputable instance : HMul ℝ V3 V3 := ⟨fun k a => ⟨k * a.x, k * a.y, k * a.z⟩⟩

noncomputable instance : HMul V3 ℝ V3 := ⟨fun a k => ⟨a.x * k, a.y * k, a.z * k⟩⟩

noncomputable instance : HMul ℝ V4 V4 := ⟨fun k a => ⟨k * a.x, k * a.y, k * a.z, k * a.w⟩⟩

noncomputable instance : HMul V4 ℝ V4 := ⟨fun a k => ⟨a.x * k, a.y * k, a.z * k, a.w * k⟩⟩

noncomputable instance : HDiv V3 ℝ V3 := ⟨fun a k => ⟨a.x / k, a.y / k, a.z / k⟩⟩

noncomputable instance : HDiv V4 ℝ V4 := ⟨fun a k => ⟨a.x / k, a.y / k, a.z / k, a.w / k⟩⟩

@[simp] theorem V3.smul_left_def (k : ℝ) (a : V3) :
    k * a = ⟨k * a.x, k * a.y, k * a.z⟩ := rfl

@[simp] theorem V3.smul_right_def (k : ℝ) (a : V3) :
    a * k = ⟨a.x * k, a.y * k, a.z * k⟩ := rfl

@[simp] theorem V4.smul_left_def4 (k : ℝ) (a : V4) :
    k * a = ⟨k * a.x, k * a.y, k * a.z, k * a.w⟩ := rfl

@[simp] theorem V4.smul_right_def4 (k : ℝ) (a : V4) :
    a * k = ⟨a.x * k, a.y * k, a.z * k, a.w * k⟩ := rfl

@[simp] theorem V3.divs_def (k : ℝ) (a : V3) :
    a / k = ⟨a.x / k, a.y / k, a.z / k⟩ := rfl

@[simp] theorem V4.divs_def4 (k : ℝ) (a : V4) :
    a / k = ⟨a.x / k, a.y / k, a.z / k, a.w / k⟩ := rfl

@[simp] theorem V3.add_def (a b : V3) :
    a + b = ⟨a.x + b.x, a.y + b.y, a.z + b.z⟩ := rfl

@[simp] theorem V4.add_def4 (a b : V4) :
    a + b = ⟨a.x + b.x, a.y + b.y, a.z + b.z, a.w + b.w⟩ := rfl

@[simp] theorem V3.sub_def (a b : V3) :
    a - b = ⟨a.x - b.x, a.y - b.y, a.z - b.z⟩ := rfl

@[simp] theorem V4.sub_def4 (a b : V4) :
    a - b = ⟨a.x - b.x, a.y - b.y, a.z - b.z, a.w - b.w⟩ := rfl

@[simp] theorem V3.neg_def (a : V3) : -a = ⟨-a.x, -a.y, -a.z⟩ := rfl

@[simp] theorem V4.neg_def4 (a : V4) : -a = ⟨-a.x, -a.y, -a.z, -a.w⟩ := rfl

@[simp] theorem V3.smul_def (k : ℝ) (a : V3) :
    k • a = ⟨k * a.x, k * a.y, k * a.z⟩ := rfl

@[simp] theorem V4.smul_def4 (k : ℝ) (a : V4) :
    k • a = ⟨k * a.x, k * a.y, k * a.z, k * a.w⟩ := rfl

@[simp] theorem V3.mul_def (a b : V3) :
    a * b = ⟨a.x * b.x, a.y * b.y, a.z * b.z⟩ := rfl

@[simp] theorem V4.mul_def4 (a b : V4) :
    a * b = ⟨a.x * b.x, a.y * b.y, a.z * b.z, a.w * b.w⟩ := rfl

@[simp] theorem V3.div_def (a b : V3) :
    a / b = ⟨a.x / b.x, a.y / b.y, a.z / b.z⟩ := rfl

@[simp] theorem V3.zero_def : (0 : V3) = ⟨0, 0, 0⟩ := rfl

@[simp] theorem V4.zero_def4 : (0 : V4) = ⟨0, 0, 0, 0⟩ := rfl

@[simp] theorem V3.zero_x : (0 : V3).x = 0 := rfl

@[simp] theorem V3.zero_y : (0 : V3).y = 0 := rfl

@[simp] theorem V3.zero_z : (0 : V3).z = 0 := rfl

@[simp] theorem V4.zero_x4 : (0 : V4).x = 0 := rfl

@[simp] theorem V4.zero_y4 : (0 : V4).y = 0 := rfl

@[simp] theorem V4.zero_z4 : (0 : V4).z = 0 := rfl

@[simp] theorem V4.zero_w : (0 : V4).w = 0 := rfl

@[simp] theorem V3.mk_inj (a b c d e f : ℝ) :
    (V3.mk a b c = V3.mk d e f) ↔ (a = d ∧ b = e ∧ c = f) := by
  constructor
  · intro h
    exact ⟨congrArg V3.x h, congrArg V3.y h, congrArg V3.z h⟩
  · rintro ⟨rfl, rfl, rfl⟩
    rfl

@[simp] theorem V4.mk_inj4 (a b c d e f g k : ℝ) :
    (V4.mk a b c d = V4.mk e f g k) ↔ (a = e ∧ b = f ∧ c = g ∧ d = k) := by
  constructor
  · intro h
    exact ⟨congrArg V4.x h, congrArg V4.y h, congrArg V4.z h, congrArg V4.w h⟩
  · rintro ⟨rfl, rfl, rfl, rfl⟩
    rfl

/-- Metal `dot` on float3. -/
def dot (a b : V3) : ℝ := a.x * b.x + a.y * b.y + a.z * b.z

/-- Metal `dot` on float4. -/
def dot4 (a b : V4) : ℝ := a.x * b.x + a.y * b.y + a.z * b.z + a.w * b.w

/-- Metal `cross` on float3. -/
def cross (a b : V3) : V3 :=
  ⟨a.y * b.z - a.z * b.y, a.z * b.x - a.x * b.z, a.x * b.y - a.y * b.x⟩

/-- Metal `length` on float3. -/
noncomputable def length (v : V3) : ℝ := Real.sqrt (dot v v)

/-- Metal `length` on a float2 built from two scalars. -/
noncomputable def lengthF2 (a b : ℝ) : ℝ := Real.sqrt (a * a + b * b)

/-- Metal `normalize`: `v / length(v)`; the zero vector maps to zero under the
real-division convention. -/
noncomputable def normalize (v : V3) : V3 := (1 / length v) • v

/-- Metal `floor` (returns a float). -/
noncomputable def mfloor (x : ℝ) : ℝ := (⌊x⌋ : ℤ)

/-- Metal `trunc` (round toward zero). -/
noncomputable def mtrunc (x : ℝ) : ℝ := if 0 ≤ x then mfloor x else -(mfloor (-x))

/-- Metal `fmod`: `x - y * trunc(x/y)`. -/
noncomputable def mfmod (x y : ℝ) : ℝ := x - y * mtrunc (x / y)

/-- Metal `step(edge, x)`: 0 when `x < edge`, else 1. -/
noncomputable def mstep (edge x : ℝ) : ℝ := if x < edge then 0 else 1

/-- Metal `clamp(x, lo, hi)` = `min(max(x, lo), hi)`. -/
noncomputable def mclamp (x lo hi : ℝ) : ℝ := min (max x lo) hi

/-- Metal `smoothstep(e0, e1, x)`. -/
noncomputable def msmoothstep (e0 e1 x : ℝ) : ℝ :=
  let t := mclamp ((x - e0) / (e1 - e0)) 0 1
  t * t * (3 - 2 * t)

/-- Metal `sign` (sign(0) = 0). -/
noncomputable def msign (x : ℝ) : ℝ := if x < 0 then -1 else if x = 0 then 0 else 1

/-- Metal `pow`, modelled by the real power; every base occurring on an
evaluated code path below is nonnegative, where `rpow` agrees with Metal. -/
noncomputable def mpow (x y : ℝ) : ℝ := Real.rpow x y

/-- Componentwise `floor` on float3. -/
noncomputable def v3floor (v : V3) : V3 := ⟨mfloor v.x, mfloor v.y, mfloor v.z⟩

/-- Componentwise `floor` on float4. -/
noncomputable def v4floor (v : V4) : V4 :=
  ⟨mfloor v.x, mfloor v.y, mfloor v.z, mfloor v.w⟩

/-- Componentwise `step` on float3. -/
noncomputable def v3step (edge v : V3) : V3 :=
  ⟨mstep edge.x v.x, mstep edge.y v.y, mstep edge.z v.z⟩

/-- Componentwise `step` on float4. -/
noncomputable def v4step (edge v : V4) : V4 :=
  ⟨mstep edge.x v.x, mstep edge.y v.y, mstep edge.z v.z, mstep edge.w v.w⟩

/-- Componentwise `min` on float3. -/
noncomputable def v3min (a b : V3) : V3 := ⟨min a.x b.x, min a.y b.y, min a.z b.z⟩

/-- Componentwise `max` on float3. -/
noncomputable def v3max (a b : V3) : V3 := ⟨max a.x b.x, max a.y b.y, max a.z b.z⟩

/-- Componentwise `abs` on float4. -/
noncomputable def v4abs (v : V4) : V4 := ⟨|v.x|, |v.y|, |v.z|, |v.w|⟩

/-- Componentwise `max` against a scalar on float4 (Metal `max(v, s)`). -/
noncomputable def v4maxs (v : V4) (s : ℝ) : V4 :=
  ⟨max v.x s, max v.y s, max v.z s, max v.w s⟩

/-- Componentwise `fmod` against a scalar on float3. -/
noncomputable def v3fmod (v : V3) (m : ℝ) : V3 :=
  ⟨mfmod v.x m, mfmod v.y m, mfmod v.z m⟩

/-- Componentwise `fmod` against a scalar on float4. -/
noncomputable def v4fmod (v : V4) (m : ℝ) : V4 :=
  ⟨mfmod v.x m, mfmod v.y m, mfmod v.z m, mfmod v.w m⟩

/-!
Simplex noise, transcribed from `snoise` in BlackHole.metal (identical text in
the scientific shader variant).  Swizzles are expanded componentwise.
-/

/-- `permute(x) = fmod(((x*34.0)+1.0)*x, 289.0)` componentwise on float4. -/
noncomputable def permute (v : V4) : V4 :=
  v4fmod ⟨(v.x * 34 + 1) * v.x, (v.y * 34 + 1) * v.y,
          (v.z * 34 + 1) * v.z, (v.w * 34 + 1) * v.w⟩ 289

/-- `taylorInvSqrt(r) = 1.79284291400159 - 0.85373472095314 * r` componentwise. -/
noncomputable def taylorInvSqrt (r : V4) : V4 :=
  ⟨1.79284291400159 - 0.85373472095314 * r.x,
   1.79284291400159 - 0.85373472095314 * r.y,
   1.79284291400159 - 0.85373472095314 * r.z,
   1.79284291400159 - 0.85373472095314 * r.w⟩

/-- Stefan Gustavson's 3D simplex noise `snoise`, transcribed line by line;
`C = (1/6, 1/3)`, `D = (0, 0.5, 1, 2)`. -/
noncomputable def snoise (v : V3) : ℝ :=
  let i0 : V3 := v3floor (v + (dot v ⟨1/3, 1/3, 1/3⟩) • ⟨1, 1, 1⟩)
  let x0 : V3 := v - i0 + (dot i0 ⟨1/6, 1/6, 1/6⟩) • ⟨1, 1, 1⟩
  let g : V3 := v3step ⟨x0.y, x0.z, x0.x⟩ ⟨x0.x, x0.y, x0.z⟩
  let l : V3 := ⟨1 - g.x, 1 - g.y, 1 - g.z⟩
  let i1 : V3 := v3min ⟨g.x, g.y, g.z⟩ ⟨l.z, l.x, l.y⟩
  let i2 : V3 := v3max ⟨g.x, g.y, g.z⟩ ⟨l.z, l.x, l.y⟩
  let x1 : V3 := x0 - i1 + (1/6 : ℝ) • ⟨1, 1, 1⟩
  let x2 : V3 := x0 - i2 + (2/6 : ℝ) • ⟨1, 1, 1⟩
  let x3 : V3 := x0 - ⟨1, 1, 1⟩ + (3/6 : ℝ) • ⟨1, 1, 1⟩
  let im : V3 := v3fmod i0 289
  let p : V4 := permute (permute (permute
      ⟨im.z + 0, im.z + i1.z, im.z + i2.z, im.z + 1⟩
      + ⟨im.y + 0, im.y + i1.y, im.y + i2.y, im.y + 1⟩)
      + ⟨im.x + 0, im.x + i1.x, im.x + i2.x, im.x + 1⟩)
  let ns : V3 := ⟨(1/7 : ℝ) * 2 - 0, (1/7 : ℝ) * (1/2) - 1, (1/7 : ℝ) * 1 - 0⟩
  let j : V4 := p - (49 : ℝ) • v4floor ((ns.z * ns.z) • p)
  let xu : V4 := v4floor (ns.z • j)
  let yu : V4 := v4floor (j - (7 : ℝ) • xu)
  let xx : V4 := ⟨xu.x * ns.x + ns.y, xu.y * ns.x + ns.y,
                  xu.z * ns.x + ns.y, xu.w * ns.x + ns.y⟩
  let yy : V4 := ⟨yu.x * ns.x + ns.y, yu.y * ns.x + ns.y,
                  yu.z * ns.x + ns.y, yu.w * ns.x + ns.y⟩
  let h : V4 := ⟨1 - |xx.x| - |yy.x|, 1 - |xx.y| - |yy.y|,
                 1 - |xx.z| - |yy.z|, 1 - |xx.w| - |yy.w|⟩
  let b0 : V4 := ⟨xx.x, xx.y, yy.x, yy.y⟩
  let b1 : V4 := ⟨xx.z, xx.w, yy.z, yy.w⟩
  let s0 : V4 := (2 : ℝ) • v4floor b0 + ⟨1, 1, 1, 1⟩
  let s1 : V4 := (2 : ℝ) • v4floor b1 + ⟨1, 1, 1, 1⟩
  let sh : V4 := -(v4step h 0)
  let a0 : V4 := ⟨b0.x + s0.x * sh.x, b0.z + s0.z * sh.x,
                  b0.y + s0.y * sh.y, b0.w + s0.w * sh.y⟩
  let a1 : V4 := ⟨b1.x + s1.x * sh.z, b1.z + s1.z * sh.z,
                  b1.y + s1.y * sh.w, b1.w + s1.w * sh.w⟩
  let p0 : V3 := ⟨a0.x, a0.y, h.x⟩
  let p1 : V3 := ⟨a0.z, a0.w, h.y⟩
  let p2 : V3 := ⟨a1.x, a1.y, h.z⟩
  let p3 : V3 := ⟨a1.z, a1.w, h.w⟩
  let nrm : V4 := taylorInvSqrt ⟨dot p0 p0, dot p1 p1, dot p2 p2, dot p3 p3⟩
  let q0 : V3 := nrm.x • p0
  let q1 : V3 := nrm.y • p1
  let q2 : V3 := nrm.z • p2
  let q3 : V3 := nrm.w • p3
  let m : V4 := v4maxs ⟨0.6 - dot x0 x0, 0.6 - dot x1 x1,
                        0.6 - dot x2 x2, 0.6 - dot x3 x3⟩ 0
  let mm : V4 := m * m
  42 * dot4 (mm * mm) ⟨dot q0 x0, dot q1 x1, dot q2 x2, dot q3 x3⟩

/-!
Shared physics code, identical across the shader variants in the repository
(BlackHole.metal, the exact-physics shader and the scientific shader).
Natural-unit constants `G = M = c = 1` as declared at the top of the shaders.
-/

/-- Gravitational constant (normalized). -/
def G : ℝ := 1

/-- Black hole mass (normalized). -/
def M : ℝ := 1

/-- Speed of light (normalized). -/
def c : ℝ := 1

/-- Temperature range constant `TEMP_RANGE = 39000.0`. -/
def TEMP_RANGE : ℝ := 39000

/-- Accretion disk constant `diskHeight = 0.3`. -/
noncomputable def diskHeight : ℝ := 0.3

/-- Accretion disk constant `diskDensityV = 1.0`. -/
def diskDensityV : ℝ := 1

/-- Accretion disk constant `diskDensityH = 2.0`. -/
def diskDensityH : ℝ := 2

/-- Accretion disk constant `diskNoiseScale = 1.0`. -/
def diskNoiseScale : ℝ := 1

/-- Accretion disk constant `diskSpeed = 0.5`. -/
noncomputable def diskSpeed : ℝ := 0.5

/-- Noise octave count `diskNoiseLOD = 4` in BlackHole.metal. -/
def diskNoiseLOD : ℕ := 4

/-- Noise octave count `diskNoiseLOD = 6` in the scientific shader. -/
def diskNoiseLODSci : ℕ := 6

/-- Metal `atan2(y, x)`. -/
noncomputable def matan2 (y x : ℝ) : ℝ :=
  if 0 < x then Real.arctan (y / x)
  else if x < 0 then
    (if 0 ≤ y then Real.arctan (y / x) + Real.pi else Real.arctan (y / x) - Real.pi)
  else (if 0 < y then Real.pi / 2 else if y < 0 then -(Real.pi / 2) else 0)

/-- Cartesian to spherical transformation `toSpherical`. -/
noncomputable def toSpherical (pos : V3) : V3 :=
  let rho := Real.sqrt (pos.x * pos.x + pos.y * pos.y + pos.z * pos.z)
  let theta := matan2 pos.z pos.x
  let phi := Real.arcsin (pos.y / rho)
  ⟨rho, theta, phi⟩

/-- Gravitational redshift factor `calculateRedShift`, identical in all
shader variants: 0 inside the horizon, else `1/(1 + (sqrt(1 - 1/dist) - 1))`. -/
noncomputable def calculateRedShift (pos : V3) : ℝ :=
  let dist := Real.sqrt (dot pos pos)
  if dist < 1 then 0
  else 1 / (1 + (Real.sqrt (1 - 1 / dist) - 1))

/-- Shakura-Sunyaev style temperature profile `calculateRealisticTemperature`:
`baseTemp * pow(radius, -0.75)`. -/
noncomputable def calculateRealisticTemperature (pos : V3) (baseTemp : ℝ) : ℝ :=
  baseTemp * mpow (length pos) (-0.75)

/-- Orbital velocity of disk matter as computed inside `calculateDopplerEffect`
of BlackHole.metal (the `velMag`/`velDir`/`vel` lines factored out):
relativistic circular-orbit speed, direction `normalize(cross((0,1,0), pos))`. -/
noncomputable def orbitalVelocity (pos : V3) : V3 :=
  let r := length pos
  let velMag := -Real.sqrt ((G * M / r) * (1 - 3 * G * M / (r * c * c)))
  let velDir := normalize (cross ⟨0, 1, 0⟩ pos)
  velMag • velDir

/-- Doppler factor `calculateDopplerEffect` from BlackHole.metal:
returns 1 inside the horizon, else `gamma * (1 + dot(vel, normalize(viewDir)))`. -/
noncomputable def calculateDopplerEffect (pos viewDir : V3) : ℝ :=
  let r := length pos
  if r < 1 then 1
  else
    let vel := orbitalVelocity pos
    let beta_s := (1 / c) • vel
    let gamma := 1 / Real.sqrt (1 - dot beta_s beta_s)
    gamma * (1 + dot vel (normalize viewDir))

/-- Multi-octave turbulence loop from `diskRender` (both variants share the
body): `noise *= 0.5*snoise(sc * pow(i,2) * diskNoiseScale) + 0.5`, with the
`y` spherical coordinate advected by `time * diskSpeed` in alternating
directions.  The first argument is the remaining octave count, the second the
current octave index `i`. -/
noncomputable def diskNoiseLoop (time : ℝ) : ℕ → ℕ → V3 → ℝ → ℝ
  | 0, _, _, acc => acc
  | k + 1, i, sc, acc =>
      let acc1 := acc * (0.5 * snoise ((mpow (i : ℝ) 2 * diskNoiseScale) • sc) + 0.5)
      let sc1 : V3 :=
        if i % 2 = 0 then ⟨sc.x, sc.y - time * diskSpeed, sc.z⟩
        else ⟨sc.x, sc.y + time * diskSpeed, sc.z⟩
      diskNoiseLoop time k (i + 1) sc1 acc1

namespace Main

/-!
The main application shader BlackHole.metal (the variant driven by the
`Uniforms` block of ShaderTypes.h and Renderer.mm).
-/

/-- The CPU/GPU-shared `Uniforms` block of ShaderTypes.h / BlackHole.metal. -/
structure Uniforms where
  resolution : V2
  time : ℝ
  gravity : ℝ
  disk_radius : ℝ
  disk_thickness : ℝ
  black_hole_size : ℝ
  camera_distance : ℝ
  integration_method : ℤ
  orbit_type : ℤ
  disk_enabled : Bool
  doppler_enabled : Bool
  redshift_enabled : Bool
  beaming_enabled : Bool
  realistic_temp : Bool
  accretion_temperature : ℝ
  observer_position : V3
  observer_velocity : V3
  show_orbiting_star : Bool
  star_orbit_radius : ℝ
  star_orbit_speed : ℝ
  star_brightness : ℝ
  background_redshift : Bool
  background_doppler : Bool
  quality_preset : ℤ
  max_iterations : ℤ
  step_size : ℝ
  adaptive_stepping : Bool

/-- Blackbody color approximation `getBlackBodyColor` of BlackHole.metal:
clamped to [1000, 40000] with piecewise branches at 3500K and 5000K. -/
noncomputable def getBlackBodyColor (temp : ℝ) : V4 :=
  let t0 := mclamp temp 1000 40000
  if t0 < 3500 then ⟨1, 0.3 + 0.7 * (t0 - 1000) / 2500, 0, 1⟩
  else if t0 < 5000 then
    ⟨1, 0.8 + 0.2 * (t0 - 3500) / 1500, 0.1 + 0.4 * (t0 - 3500) / 1500, 1⟩
  else ⟨1 - 0.3 * ((t0 - 5000) / 35000), 1 - 0.2 * ((t0 - 5000) / 35000), 1, 1⟩

/-- Accretion disk shading `diskRender` of BlackHole.metal.  Returns the
updated `(color, alpha)` pair (the shader mutates both by reference). -/
noncomputable def diskRender (pos : V3) (color : V4) (alpha : ℝ) (viewDir : V3)
    (time : ℝ) (u : Uniforms) : V4 × ℝ :=
  let innerRadius := u.black_hole_size * 25
  let outerRadius := u.disk_radius
  let yDisk := |pos.y|
  let rDisk := lengthF2 pos.x pos.z
  if yDisk > u.disk_thickness ∨ rDisk < innerRadius ∨ rDisk > outerRadius then
    (color, alpha)
  else
    let density0 := 1 - msmoothstep innerRadius outerRadius rDisk
    let density1 := density0 * mpow (1 - yDisk / u.disk_thickness) (diskDensityV * 2)
    let density2 := density1 * msmoothstep innerRadius (innerRadius * 1.2) rDisk
    if density2 < 0.01 then (color, alpha)
    else
      let sc0 := toSpherical pos
      let sc : V3 := ⟨sc0.x, sc0.y * 2, sc0.z * 4⟩
      let density3 := density2 * (1 / mpow sc.x diskDensityH)
      let density4 := density3 * 16000
      let noise := diskNoiseLoop time diskNoiseLOD 0 sc 1
      let redshift := calculateRedShift pos
      let doppler := calculateDopplerEffect pos viewDir
      let accretionTempMod0 : ℝ := 7500
      let accretionTempMod1 := calculateRealisticTemperature pos accretionTempMod0
      let accretionTempMod2 := accretionTempMod1 / doppler
      let accretionTempMod3 := accretionTempMod2 / redshift
      let dustColor := getBlackBodyColor (accretionTempMod3 * redshift)
      let beaming := mpow doppler 3
      let colorOut := color + density4 * dustColor * alpha * |noise| * (0.3 : ℝ)
      let alphaOut := alpha * (1 - density4 * |noise| * 0.3)
      (colorOut, alphaOut)

/-- Schwarzschild geodesic acceleration of BlackHole.metal:
`acc = -1.5 * h2 * pos / pow(dot(pos,pos), 2.5) * gravityStrength`. -/
noncomputable def acceleration (h2 : ℝ) (pos : V3) (gravityStrength : ℝ) : V3 :=
  let r2 := dot pos pos
  let r5 := mpow r2 2.5
  ⟨-1.5 * h2 * pos.x / r5 * gravityStrength,
   -1.5 * h2 * pos.y / r5 * gravityStrength,
   -1.5 * h2 * pos.z / r5 * gravityStrength⟩

/-- Velocity-Verlet geodesic step of BlackHole.metal; returns `(pos, dir)`. -/
noncomputable def verlet (pos : V3) (h2 : ℝ) (dir : V3) (dt gravityStrength : ℝ) :
    V3 × V3 :=
  let a := acceleration h2 pos gravityStrength
  let pos_new := pos + dt • dir + (0.5 * dt * dt) • a
  let a_new := acceleration h2 pos_new gravityStrength
  let dir_new := dir + (0.5 * dt) • (a + a_new)
  (pos_new, dir_new)

/-- Fourth-order Runge-Kutta geodesic step of BlackHole.metal;
returns `(pos, dir)`. -/
noncomputable def rk4 (pos : V3) (h2 : ℝ) (dir : V3) (dt gravityStrength : ℝ) :
    V3 × V3 :=
  let k1_pos := dir
  let k1_vel := acceleration h2 pos gravityStrength
  let k2_pos := dir + (0.5 * dt) • k1_vel
  let k2_vel := acceleration h2 (pos + (0.5 * dt) • k1_pos) gravityStrength
  let k3_pos := dir + (0.5 * dt) • k2_vel
  let k3_vel := acceleration h2 (pos + (0.5 * dt) • k2_pos) gravityStrength
  let k4_pos := dir + dt • k3_vel
  let k4_vel := acceleration h2 (pos + dt • k3_pos) gravityStrength
  let pos_new :=
    pos + ((1/6 : ℝ) * dt) • (k1_pos + (2 : ℝ) • k2_pos + (2 : ℝ) • k3_pos + k4_pos)
  let dir_new :=
    dir + ((1/6 : ℝ) * dt) • (k1_vel + (2 : ℝ) • k2_vel + (2 : ℝ) • k3_vel + k4_vel)
  (pos_new, dir_new)

/-- Background star redshift `applyBackgroundRedshift` of BlackHole.metal. -/
noncomputable def applyBackgroundRedshift (color : V3) (pos : V3) : V3 :=
  let dist := length pos
  if dist < 1 then color
  else
    let redshift0 := Real.sqrt (max 0 (1 - 1 / dist)) - 1
    let redshift := max 0 redshift0
    let factor := 1 / (1 + redshift * 0.5)
    color * (⟨1, factor, factor * factor⟩ : V3)

/-- Per-ray marching state of `rayMarch`: position, direction, accumulated
color, accumulated alpha, and the angular momentum square `h2` computed once
from the initial position/direction (a local that the loop never reassigns). -/
structure MarchState where
  pos : V3
  dir : V3
  color : V4
  alpha : ℝ
  h2 : ℝ

/-- Initial ray state of `rayMarch`: `color = 0`, `alpha = 1`,
`h = cross(pos, dir)`, `h2 = dot(h, h)`. -/
noncomputable def initState (pos dir : V3) : MarchState :=
  ⟨pos, dir, 0, 1, dot (cross pos dir) (cross pos dir)⟩

/-- One geodesic integration step of the `rayMarch` loop of BlackHole.metal:
optional adaptive step-size shrink below radius 3, then unconditionally the
RK4 step (the loop body reads no integration selector). -/
noncomputable def stepIntegrate (u : Uniforms) (s : MarchState) : V3 × V3 :=
  let currentStepSize :=
    if u.adaptive_stepping then
      (let r := length s.pos
       if r < 3 then u.step_size * (r / 3) else u.step_size)
    else u.step_size
  rk4 s.pos s.h2 s.dir currentStepSize u.gravity

/-- Background starfield composition at the end of `rayMarch`: sky color plus
procedural stars, composited as `color += float4(sky,1) * (1 - color.a)` with
the alpha forced to 1. -/
noncomputable def skyComposite (s : MarchState) : V4 :=
  let skyColor0 : V3 := ⟨0.005, 0.01, 0.02⟩
  let starNoise := snoise ((50 : ℝ) • s.dir)
  let skyColor1 :=
    if starNoise > 0.8 then
      (let starColor0 : V3 := ((starNoise - 0.8) * 5) • (⟨0.8, 0.9, 1.0⟩ : V3)
       let starColor :=
         if length s.pos < 20 then applyBackgroundRedshift starColor0 s.pos
         else starColor0
       skyColor0 + starColor)
    else skyColor0
  let skyColor := (1 + 0.3 * snoise ((5 : ℝ) • s.dir)) • skyColor1
  let c1 := s.color + (1 - s.color.w) • (⟨skyColor.x, skyColor.y, skyColor.z, 1⟩ : V4)
  ⟨c1.x, c1.y, c1.z, 1⟩

/-- One full iteration of the `rayMarch` loop viewed as a state update:
integrate, then evaluate the disk; `h2` is carried through unchanged. -/
noncomputable def iterState (u : Uniforms) (time : ℝ) (s : MarchState) : MarchState :=
  let pd := stepIntegrate u s
  let ca := diskRender pd.1 s.color s.alpha pd.2 time u
  ⟨pd.1, pd.2, ca.1, ca.2, s.h2⟩

/-- The `rayMarch` loop of BlackHole.metal with explicit fuel (the remaining
iteration budget).  The boolean records whether the ray terminated through the
event-horizon capture check (`dot(pos,pos) < 1` immediately after the
integration step), in which case the accumulated color is returned as-is;
every other exit (opacity below 0.01, escape beyond 100, exhausted budget)
falls through to the starfield composition. -/
noncomputable def marchLoop (u : Uniforms) (time : ℝ) : ℕ → MarchState → V4 × Bool
  | 0, s => (skyComposite s, false)
  | n + 1, s =>
      let pd := stepIntegrate u s
      if dot pd.1 pd.1 < 1 then (s.color, true)
      else
        let s1 := iterState u time s
        if s1.alpha < 0.01 then (skyComposite s1, false)
        else if length s1.pos > 100 then (skyComposite s1, false)
        else marchLoop u time n s1

/-- Complete `rayMarch` of BlackHole.metal. -/
noncomputable def rayMarch (pos dir : V3) (time : ℝ) (u : Uniforms) : V4 :=
  (marchLoop u time u.max_iterations.toNat (initState pos dir)).1

end Main

namespace Sci

/-!
The scientific shader variant (`BlackHoleSettings`-driven `diskRender` and
`calculateDopplerEffect` with the orbit-model selector).
-/

/-- The `BlackHoleSettings` block of the scientific shader. -/
structure BlackHoleSettings where
  integration : ℤ
  accretionDiskOrbit : ℤ
  disk : Bool
  dopplerEffect : Bool
  gravitationalRedshift : Bool
  beaming : Bool
  realisticTemperature : Bool
  accretionTemp : ℝ

/-- Blackbody color `getBlackBodyColor` of the scientific shader: clamped to
[1000, 40000], branches at 3500K and 7000K. -/
noncomputable def getBlackBodyColor (temp : ℝ) : V4 :=
  let t0 := mclamp temp 1000 40000
  if t0 < 3500 then
    (let t := (t0 - 1000) / 2500
     ⟨1, 0.3 + 0.5 * t, 0.1 * t, 1⟩)
  else if t0 < 7000 then
    (let t := (t0 - 3500) / 3500
     ⟨1, 0.8 + 0.2 * t, 0.6 * t, 1⟩)
  else
    (let t := (t0 - 7000) / 33000
     ⟨1 - 0.2 * t, 1 - 0.1 * t, 1, 1⟩)

/-- Doppler factor of the scientific shader, with the orbit-model selector
(0 = Newtonian speed, otherwise relativistic). -/
noncomputable def calculateDopplerEffect (pos viewDir : V3)
    (accretionDiskOrbit : ℤ) : ℝ :=
  let r := length pos
  if r < 1 then 1
  else
    let velMag :=
      if accretionDiskOrbit = 0 then -Real.sqrt (G * M / r)
      else -Real.sqrt ((G * M / r) * (1 - 3 * G * M / (r * c * c)))
    let velDir := normalize (cross ⟨0, 1, 0⟩ pos)
    let vel := velMag • velDir
    let beta_s := (1 / c) • vel
    let gamma := 1 / Real.sqrt (1 - dot beta_s beta_s)
    gamma * (1 + dot vel (normalize viewDir))

/-- First density factor of the scientific `diskRender`:
`max(0, 1 - length(pos / (9, diskHeight, 9)))` (outer radius 9). -/
noncomputable def diskDensityA (pos : V3) : ℝ :=
  max 0 (1 - length (pos / (⟨9, diskHeight, 9⟩ : V3)))

/-- Density after the vertical falloff and inner-edge smoothstep of the
scientific `diskRender` (inner radius 3). -/
noncomputable def diskDensityB (pos : V3) : ℝ :=
  diskDensityA pos * mpow (1 - |pos.y| / diskHeight) diskDensityV *
    msmoothstep 3 (3 * 1.1) (length pos)

/-- Accretion disk shading `diskRender` of the scientific shader.  The shader
reads `alpha` but never writes it, so only the updated color is returned. -/
noncomputable def diskRender (pos : V3) (color : V4) (alpha : ℝ) (viewDir : V3)
    (time : ℝ) (settings : BlackHoleSettings) : V4 :=
  let density0 := diskDensityA pos
  if density0 < 0.001 then color
  else
    let density2 := diskDensityB pos
    if density2 < 0.001 then color
    else
      let sc0 := toSpherical pos
      let sc : V3 := ⟨sc0.x, sc0.y * 2, sc0.z * 4⟩
      let density3 := density2 * (1 / mpow sc.x diskDensityH)
      let density4 := density3 * 16000
      let noise := diskNoiseLoop time diskNoiseLODSci 0 sc 1
      let redshift := calculateRedShift pos
      let doppler := calculateDopplerEffect pos viewDir settings.accretionDiskOrbit
      let t1 := settings.accretionTemp
      let t2 := if settings.realisticTemperature then
                  calculateRealisticTemperature pos t1 else t1
      let t3 := if settings.dopplerEffect then t2 / doppler else t2
      let t4 := if settings.gravitationalRedshift then t3 / redshift else t3
      let dustColor := getBlackBodyColor (t4 * redshift) * (0.5 : ℝ)
      let c1 := color + density4 * dustColor * alpha * |noise|
      let c2 := if settings.gravitationalRedshift then c1 / redshift else c1
      let c3 := if settings.beaming then c2 / (doppler * doppler * doppler) else c2
      c3

end Sci

namespace Bloom

/-!
The bloom post-processing kernels of bloom_brightness.metal, sequenced as in
`Renderer::applyBloomEffect`: brightness extraction, a downsample pyramid,
then upsample-and-accumulate from the smallest level back up.  A texture is
modelled as a function from texel coordinates to float4; the hardware linear
sampler is modelled as the standard bilinear blend of the four neighbouring
texels with clamp-to-edge addressing.
-/

/-- A texture: texel coordinates to float4. -/
def Image : Type := ℕ → ℕ → V4

/-- Clamp-to-edge texel index. -/
def texClampIdx (n : ℕ) (i : ℤ) : ℕ := (min (max i 0) ((n : ℤ) - 1)).toNat

/-- Bilinear (linear min/mag filter) sampling at normalized coordinates. -/
noncomputable def sampleLinear (tex : Image) (w h : ℕ) (u v : ℝ) : V4 :=
  let sx := u * (w : ℝ) - 0.5
  let sy := v * (h : ℝ) - 0.5
  let ix := ⌊sx⌋
  let iy := ⌊sy⌋
  let fx := sx - (ix : ℝ)
  let fy := sy - (iy : ℝ)
  let t00 := tex (texClampIdx w ix) (texClampIdx h iy)
  let t10 := tex (texClampIdx w (ix + 1)) (texClampIdx h iy)
  let t01 := tex (texClampIdx w ix) (texClampIdx h (iy + 1))
  let t11 := tex (texClampIdx w (ix + 1)) (texClampIdx h (iy + 1))
  ((1 - fx) * (1 - fy)) • t00 + (fx * (1 - fy)) • t10 +
    ((1 - fx) * fy) • t01 + (fx * fy) • t11

/-- Kernel `bloom_brightness_pass`: luminance threshold, keep bright pixels. -/
noncomputable def bloom_brightness_pass (input : Image) (brightPassThreshold : ℝ) :
    Image := fun gx gy =>
  let color := input gx gy
  let luminance := color.x * 0.2125 + color.y * 0.7154 + color.z * 0.0721
  let luminance2 := max 0 (luminance - brightPassThreshold)
  ⟨color.x * msign luminance2, color.y * msign luminance2,
   color.z * msign luminance2, 1⟩

/-- Kernel `bloom_downsample`: 4-tap box filter of the input level. -/
noncomputable def bloom_downsample (input : Image) (iw ih ow oh : ℕ) : Image :=
  fun gx gy =>
  let tx := 1 / (iw : ℝ)
  let ty := 1 / (ih : ℝ)
  let u := ((gx : ℝ) + 0.5) / (ow : ℝ)
  let v := ((gy : ℝ) + 0.5) / (oh : ℝ)
  (0.25 : ℝ) • (sampleLinear input iw ih (u - tx * 0.5) (v - ty * 0.5)
    + sampleLinear input iw ih (u + tx * 0.5) (v - ty * 0.5)
    + sampleLinear input iw ih (u - tx * 0.5) (v + ty * 0.5)
    + sampleLinear input iw ih (u + tx * 0.5) (v + ty * 0.5))

/-- Kernel `bloom_upsample`: 4-tap tent filter of the smaller input plus the
previously downsampled level, alpha forced to 1. -/
noncomputable def bloom_upsample (input : Image) (iw ih : ℕ) (previous : Image)
    (pw ph : ℕ) (ow oh : ℕ) : Image := fun gx gy =>
  let tx := 1 / (iw : ℝ)
  let ty := 1 / (ih : ℝ)
  let u := ((gx : ℝ) + 0.5) / (ow : ℝ)
  let v := ((gy : ℝ) + 0.5) / (oh : ℝ)
  let color0 := (0.25 : ℝ) • (sampleLinear input iw ih (u - tx * 0.5) (v - ty * 0.5)
    + sampleLinear input iw ih (u + tx * 0.5) (v - ty * 0.5)
    + sampleLinear input iw ih (u - tx * 0.5) (v + ty * 0.5)
    + sampleLinear input iw ih (u + tx * 0.5) (v + ty * 0.5))
  let color1 := color0 + sampleLinear previous pw ph u v
  ⟨color1.x, color1.y, color1.z, 1⟩

/-- The downsample/upsample pyramid of `Renderer::applyBloomEffect` over a
list of level dimensions: descend by box-filtered halvings, then come back up
adding each downsampled level (the deepest level is combined with itself
first, exactly as the host loops do).  Returns the bloom image and its
dimensions. -/
noncomputable def bloomPyramid (img : Image) (d : ℕ × ℕ) :
    List (ℕ × ℕ) → Image × (ℕ × ℕ)
  | [] => (img, d)
  | nd :: rest =>
      let nxt := bloom_downsample img d.1 d.2 nd.1 nd.2
      let deeper := bloomPyramid nxt nd rest
      (bloom_upsample deeper.1 deeper.2.1 deeper.2.2 nxt nd.1 nd.2 nd.1 nd.2, nd)

/-- The bloom contribution handed to the composite pass: brightness
extraction followed by the full pyramid. -/
noncomputable def bloomContribution (brightPassThreshold : ℝ) (scene : Image)
    (w h : ℕ) (levels : List (ℕ × ℕ)) : Image :=
  (bloomPyramid (bloom_brightness_pass scene brightPassThreshold) (w, h) levels).1

/-- Kernel `bloom_composite`: `scene * tone + bloom * strength`, alpha 1. -/
noncomputable def bloom_composite (scene bloom : Image) (bloomStrength tone : ℝ) :
    Image := fun gx gy =>
  let sceneColor := scene gx gy
  let bloomColor := bloom gx gy
  let finalColor := sceneColor * tone + bloomColor * bloomStrength
  ⟨finalColor.x, finalColor.y, finalColor.z, 1⟩

/-- An image whose RGB components vanish everywhere. -/
def RgbZero (img : Image) : Prop :=
  ∀ gx gy : ℕ, (img gx gy).x = 0 ∧ (img gx gy).y = 0 ∧ (img gx gy).z = 0

/-- The all-zero HDR input image. -/
noncomputable def zeroImage : Image := fun _ _ => 0

end Bloom

/-- Renderer.mm default parameter block: the values written in
`Renderer::Renderer` (integration_method and orbit_type are zero-initialized
ivars that the host never assigns). -/
noncomputable def uDefaults : Main.Uniforms :=
  ⟨⟨1280, 720⟩, 0, 2.5, 5, 0.2, 0.12, 8, 0, 0, true, true, true, true, true,
   7500, ⟨0, 0, 8⟩, ⟨0, 0, 0⟩, true, 6, 0.5, 1, true, true, 2, 256, 0.1, true⟩

/-!
Helper lemmas.
-/

/-- Square-root evaluation helper for perfect squares. -/
theorem sqrtEq (a b : ℝ) (hb : 0 ≤ b) (h : a = b ^ 2) : Real.sqrt a = b := by
  rw [h]
  exact Real.sqrt_sq hb

theorem dot_self_nonneg (v : V3) : 0 ≤ dot v v := by
  simp only [dot]
  nlinarith [mul_self_nonneg v.x, mul_self_nonneg v.y, mul_self_nonneg v.z]

/-- Cauchy-Schwarz for the float3 dot product. -/
theorem dot_sq_le (a b : V3) : dot a b ^ 2 ≤ dot a a * dot b b := by
  simp only [dot]
  nlinarith [sq_nonneg (a.x * b.y - a.y * b.x), sq_nonneg (a.x * b.z - a.z * b.x),
    sq_nonneg (a.y * b.z - a.z * b.y)]

theorem dot_self_zero {v : V3} (h : dot v v = 0) : v = ⟨0, 0, 0⟩ := by
  simp only [dot] at h
  have hx : v.x = 0 := by nlinarith [sq_nonneg v.x, sq_nonneg v.y, sq_nonneg v.z]
  have hy : v.y = 0 := by nlinarith [sq_nonneg v.x, sq_nonneg v.y, sq_nonneg v.z]
  have hz : v.z = 0 := by nlinarith [sq_nonneg v.x, sq_nonneg v.y, sq_nonneg v.z]
  calc v = ⟨v.x, v.y, v.z⟩ := rfl
    _ = ⟨0, 0, 0⟩ := by rw [hx, hy, hz]

theorem dot_normalize_self {v : V3} (h : 0 < dot v v) :
    dot (normalize v) (normalize v) = 1 := by
  simp only [normalize, length, V3.smul_def, dot] at h ⊢
  have hs : Real.sqrt (v.x * v.x + v.y * v.y + v.z * v.z) *
      Real.sqrt (v.x * v.x + v.y * v.y + v.z * v.z) =
      v.x * v.x + v.y * v.y + v.z * v.z := Real.mul_self_sqrt (by nlinarith)
  have hpos : 0 < Real.sqrt (v.x * v.x + v.y * v.y + v.z * v.z) :=
    Real.sqrt_pos.mpr (by nlinarith)
  field_simp

theorem normalize_zero_of_dot_zero {v : V3} (h : dot v v = 0) :
    normalize v = ⟨0, 0, 0⟩ := by
  have hv := dot_self_zero h
  rw [hv]
  simp only [normalize, length, dot, V3.smul_def]
  norm_num

theorem length_neg (p : V3) : length (-p) = length p := by
  simp only [length, dot, V3.neg_def]
  ring_nf

/-- The orbital velocity flips sign at the diametrically opposite point. -/
theorem orbital_neg (pos : V3) : orbitalVelocity (-pos) = -(orbitalVelocity pos) := by
  simp only [orbitalVelocity, normalize, length, cross, dot, V3.neg_def, V3.smul_def]
  refine (V3.mk_inj _ _ _ _ _ _).mpr ⟨?_, ?_, ?_⟩ <;> ring_nf

/-- Outside the horizon the Doppler factor reduces to the Lorentz-factor
formula over the orbital velocity. -/
theorem doppler_reduce (pos viewDir : V3) (hr : ¬ (length pos < 1)) :
    calculateDopplerEffect pos viewDir =
      (1 / Real.sqrt (1 - dot (orbitalVelocity pos) (orbitalVelocity pos))) *
        (1 + dot (orbitalVelocity pos) (normalize viewDir)) := by
  rw [calculateDopplerEffect]
  simp only [if_neg hr, c, V3.smul_def]
  norm_num

/-- Outside the horizon the redshift factor is at least 1 along the x axis. -/
theorem redshift_ge_one {t : ℝ} (ht : 1 < t) :
    1 ≤ calculateRedShift ⟨t, 0, 0⟩ := by
  have ht0 : (0 : ℝ) ≤ t := le_of_lt (lt_trans one_pos ht)
  have hd : Real.sqrt (dot ⟨t, 0, 0⟩ ⟨t, 0, 0⟩) = t := by
    apply sqrtEq _ _ ht0
    simp [dot]
    ring
  rw [calculateRedShift]
  simp only [hd, if_neg (not_lt.mpr (le_of_lt ht))]
  have harg0 : (0 : ℝ) < 1 - 1 / t := by
    have : 1 / t < 1 := by
      rw [div_lt_one (lt_trans one_pos ht)]
      exact ht
    linarith
  have harg1 : 1 - 1 / t ≤ 1 := by
    have : 0 < 1 / t := by positivity
    linarith
  have hs0 : 0 < Real.sqrt (1 - 1 / t) := Real.sqrt_pos.mpr harg0
  have hs1 : Real.sqrt (1 - 1 / t) ≤ 1 := Real.sqrt_le_one.mpr harg1
  rw [show (1 : ℝ) + (Real.sqrt (1 - 1 / t) - 1) = Real.sqrt (1 - 1 / t) by ring]
  rw [le_div_iff₀ hs0]
  linarith

/-- Clamp idempotence. -/
theorem mclamp_idem (x lo hi : ℝ) (h : lo ≤ hi) :
    mclamp (mclamp x lo hi) lo hi = mclamp x lo hi := by
  have h1 : lo ≤ mclamp x lo hi := by
    rw [mclamp]
    exact le_min (le_max_right _ _) h
  have h2 : mclamp x lo hi ≤ hi := min_le_right _ _
  rw [mclamp, max_eq_left h1, min_eq_left h2]

/-- Green channel of the blackbody map just left of the 3500K boundary. -/
theorem blackbody_left_green {t : ℝ} (h1 : (3499 : ℝ) ≤ t) (h2 : t < 3500) :
    (Main.getBlackBodyColor t).y ≥ 0.99 := by
  rw [Main.getBlackBodyColor]
  have hc : mclamp t 1000 40000 = t := by
    rw [mclamp, max_eq_left (by linarith), min_eq_left (by linarith)]
  simp only [hc, if_pos h2]
  norm_num
  linarith

namespace Bloom

theorem sampleLinear_rgbzero {tex : Image} (hz : RgbZero tex) (w h : ℕ) (u v : ℝ) :
    (sampleLinear tex w h u v).x = 0 ∧ (sampleLinear tex w h u v).y = 0 ∧
      (sampleLinear tex w h u v).z = 0 := by
  simp only [sampleLinear]
  refine ⟨?_, ?_, ?_⟩
  · simp [(hz _ _).1]
  · simp [(hz _ _).2.1]
  · simp [(hz _ _).2.2]

theorem brightness_rgbzero (thr : ℝ) : RgbZero (bloom_brightness_pass zeroImage thr) := by
  intro gx gy
  simp [bloom_brightness_pass, zeroImage]

theorem downsample_rgbzero {tex : Image} (hz : RgbZero tex) (iw ih ow oh : ℕ) :
    RgbZero (bloom_downsample tex iw ih ow oh) := by
  intro gx gy
  simp only [bloom_downsample]
  refine ⟨?_, ?_, ?_⟩ <;>
    simp [(sampleLinear_rgbzero hz iw ih _ _).1,
          (sampleLinear_rgbzero hz iw ih _ _).2.1,
          (sampleLinear_rgbzero hz iw ih _ _).2.2]

theorem upsample_rgbzero {small prev : Image} (hs : RgbZero small) (hp : RgbZero prev)
    (iw ih pw ph ow oh : ℕ) :
    RgbZero (bloom_upsample small iw ih prev pw ph ow oh) := by
  intro gx gy
  simp only [bloom_upsample]
  refine ⟨?_, ?_, ?_⟩ <;>
    simp [(sampleLinear_rgbzero hs iw ih _ _).1,
          (sampleLinear_rgbzero hs iw ih _ _).2.1,
          (sampleLinear_rgbzero hs iw ih _ _).2.2,
          (sampleLinear_rgbzero hp pw ph _ _).1,
          (sampleLinear_rgbzero hp pw ph _ _).2.1,
          (sampleLinear_rgbzero hp pw ph _ _).2.2]

theorem pyramid_rgbzero {img : Image} (hz : RgbZero img) (d : ℕ × ℕ)
    (levels : List (ℕ × ℕ)) : RgbZero (bloomPyramid img d levels).1 := by
  induction levels generalizing img d with
  | nil => exact hz
  | cons nd rest ih =>
      simp only [bloomPyramid]
      exact upsample_rgbzero (ih (downsample_rgbzero hz d.1 d.2 nd.1 nd.2) nd)
        (downsample_rgbzero hz d.1 d.2 nd.1 nd.2) _ _ _ _ _ _

end Bloom

/-- Metal pow with exponent 2 is squaring. -/
theorem mpow_two (x : ℝ) : mpow x 2 = x * x := by
  show x ^ (2 : ℝ) = x * x
  rw [show (2 : ℝ) = ((2 : ℕ) : ℝ) by norm_num, Real.rpow_natCast]
  ring

theorem mpow_zero_two : mpow 0 2 = 0 := by
  show (0 : ℝ) ^ (2 : ℝ) = 0
  exact Real.zero_rpow (by norm_num)

theorem mpow_one_any (y : ℝ) : mpow 1 y = 1 := by
  show (1 : ℝ) ^ y = 1
  exact Real.one_rpow y

/-- Metal pow with exponent 2.5 on a perfect square. -/
theorem mpow_five_halves (a b : ℝ) (hb : 0 ≤ b) (h : a = b ^ 2) :
    mpow a (5 / 2) = b ^ 5 := by
  show a ^ ((5 : ℝ) / 2) = b ^ 5
  rw [h, ← Real.rpow_natCast b 2, ← Real.rpow_mul hb]
  rw [show ((2 : ℕ) : ℝ) * (5 / 2) = ((5 : ℕ) : ℝ) by norm_num, Real.rpow_natCast]

set_option maxHeartbeats 4000000 in
/-- Exact value of the simplex noise at the origin. -/
theorem snoise_eval_0 : snoise ⟨0, 0, 0⟩ =
    -174508483434765473681/423360000000000000000 := by
  norm_num [snoise, permute, taylorInvSqrt, v3floor, v4floor, v3step, v4step,
    v3min, v3max, v4maxs, v3fmod, v4fmod, mfloor, mfmod, mtrunc, mstep,
    dot, dot4, Int.floor_eq_iff, abs_of_nonneg, abs_of_nonpos]

set_option maxHeartbeats 4000000 in
/-- Exact value of the simplex noise at (4,0,0). -/
theorem snoise_eval_4 : snoise ⟨4, 0, 0⟩ =
    -200930310516902009537/793800000000000000000 := by
  norm_num [snoise, permute, taylorInvSqrt, v3floor, v4floor, v3step, v4step,
    v3min, v3max, v4maxs, v3fmod, v4fmod, mfloor, mfmod, mtrunc, mstep,
    dot, dot4, Int.floor_eq_iff, abs_of_nonneg, abs_of_nonpos]

set_option maxHeartbeats 4000000 in
/-- Exact value of the simplex noise at (16,0,0). -/
theorem snoise_eval_16 : snoise ⟨16, 0, 0⟩ =
    -2686125512852632500413/31752000000000000000000 := by
  norm_num [snoise, permute, taylorInvSqrt, v3floor, v4floor, v3step, v4step,
    v3min, v3max, v4maxs, v3fmod, v4fmod, mfloor, mfmod, mtrunc, mstep,
    dot, dot4, Int.floor_eq_iff, abs_of_nonneg, abs_of_nonpos]

set_option maxHeartbeats 4000000 in
/-- Exact value of the simplex noise at (36,0,0). -/
theorem snoise_eval_36 : snoise ⟨36, 0, 0⟩ =
    -2775315640167355066403/4536000000000000000000 := by
  norm_num [snoise, permute, taylorInvSqrt, v3floor, v4floor, v3step, v4step,
    v3min, v3max, v4maxs, v3fmod, v4fmod, mfloor, mfmod, mtrunc, mstep,
    dot, dot4, Int.floor_eq_iff, abs_of_nonneg, abs_of_nonpos]

set_option maxHeartbeats 4000000 in
/-- Exact value of the simplex noise at (64,0,0). -/
theorem snoise_eval_64 : snoise ⟨64, 0, 0⟩ =
    -656317685686712701879/1984500000000000000000 := by
  norm_num [snoise, permute, taylorInvSqrt, v3floor, v4floor, v3step, v4step,
    v3min, v3max, v4maxs, v3fmod, v4fmod, mfloor, mfmod, mtrunc, mstep,
    dot, dot4, Int.floor_eq_iff, abs_of_nonneg, abs_of_nonpos]

set_option maxHeartbeats 4000000 in
/-- Exact value of the simplex noise at (100,0,0). -/
theorem snoise_eval_100 : snoise ⟨100, 0, 0⟩ =
    4148527198758322976107/10584000000000000000000 := by
  norm_num [snoise, permute, taylorInvSqrt, v3floor, v4floor, v3step, v4step,
    v3min, v3max, v4maxs, v3fmod, v4fmod, mfloor, mfmod, mtrunc, mstep,
    dot, dot4, Int.floor_eq_iff, abs_of_nonneg, abs_of_nonpos]

set_option maxHeartbeats 1000000 in
/-- The four-octave turbulence product of BlackHole.metal at spherical
coordinates (4,0,0), time 0. -/
theorem noiseLoop4_eval : diskNoiseLoop 0 4 0 ⟨4, 0, 0⟩ 1 =
    7550304026217783155780452848624330531151212986865891438368172124133172257838300638983/774435105505345536000000000000000000000000000000000000000000000000000000000000000000000 := by
  norm_num [diskNoiseLoop, diskNoiseScale, diskSpeed, mpow_two, mpow_zero_two,
    snoise_eval_0, snoise_eval_4, snoise_eval_16, snoise_eval_36]

set_option maxHeartbeats 1000000 in
/-- The six-octave turbulence product of the scientific shader at spherical
coordinates (4,0,0), time 0. -/
theorem noiseLoop6_eval : diskNoiseLoop 0 6 0 ⟨4, 0, 0⟩ 1 =
    147740438660069064417277236189632612571058325109976512203806872065634483376529671556737116331267454613920435239299971717498218901/65064778741635165440704512000000000000000000000000000000000000000000000000000000000000000000000000000000000000000000000000000000000 := by
  norm_num [diskNoiseLoop, diskNoiseScale, diskSpeed, mpow_two, mpow_zero_two,
    snoise_eval_0, snoise_eval_4, snoise_eval_16, snoise_eval_36,
    snoise_eval_64, snoise_eval_100]

/-- Geodesic acceleration at (3,0,0) with h2 = 54 and the default gravity. -/
theorem acceleration_eval_1 : Main.acceleration 54 ⟨3, 0, 0⟩ (5/2) =
    ⟨-5/2, 0, 0⟩ := by
  norm_num [Main.acceleration, dot,
    mpow_five_halves 9 3 (by norm_num) (by norm_num)]

/-- Geodesic acceleration at the second RK4 stage point. -/
theorem acceleration_eval_2 : Main.acceleration 54 ⟨17/5, 0, 0⟩ (5/2) =
    ⟨-253125/167042, 0, 0⟩ := by
  norm_num [Main.acceleration, dot,
    mpow_five_halves (289/25) (17/5) (by norm_num) (by norm_num)]

/-- Geodesic acceleration at the third RK4 stage point. -/
theorem acceleration_eval_3 : Main.acceleration 54 ⟨543/160, 0, 0⟩ (5/2) =
    ⟨-1638400000/1073283121, 0, 0⟩ := by
  norm_num [Main.acceleration, dot,
    mpow_five_halves (294849/25600) (543/160) (by norm_num) (by norm_num)]

/-- First density factor of the scientific disk at (4,0,0). -/
theorem diskDensityA_eval : Sci.diskDensityA ⟨4, 0, 0⟩ = 5/9 := by
  norm_num [Sci.diskDensityA, diskHeight, length, dot, max_def,
    sqrtEq (16/81) (4/9) (by norm_num) (by norm_num)]

/-- Full density of the scientific disk at (4,0,0): the vertical falloff and
the inner-edge smoothstep are both 1 there. -/
theorem diskDensityB_eval : Sci.diskDensityB ⟨4, 0, 0⟩ = 5/9 := by
  norm_num [Sci.diskDensityB, diskDensityA_eval, diskHeight, diskDensityV,
    length, dot, msmoothstep, mclamp, max_def, min_def, mpow_one_any,
    sqrtEq 16 4 (by norm_num) (by norm_num)]

/-- Scientific Doppler factor at (4,0,0) looking along (0,0,1) with the
relativistic orbit model. -/
theorem sci_doppler_eval :
    Sci.calculateDopplerEffect ⟨4, 0, 0⟩ ⟨0, 0, 1⟩ 1 =
      (1 / Real.sqrt (15/16)) * (5/4) := by
  norm_num [Sci.calculateDopplerEffect, G, M, c, length, dot, cross, normalize,
    sqrtEq 16 4 (by norm_num) (by norm_num),
    sqrtEq (1/16) (1/4) (by norm_num) (by norm_num),
    sqrtEq 1 1 (by norm_num) (by norm_num)]

/-- Gravitational redshift factor at radius 4. -/
theorem redshift_eval_4 : calculateRedShift ⟨4, 0, 0⟩ = 1 / Real.sqrt (3/4) := by
  rw [calculateRedShift]
  rw [show Real.sqrt (dot ⟨4, 0, 0⟩ ⟨4, 0, 0⟩) = 4 from
    sqrtEq _ 4 (by norm_num) (by simp [dot]; norm_num)]
  rw [if_neg (by norm_num)]
  norm_num

/-- The square of the Doppler factor at (4,0,0) / (0,0,1) is exactly 5/3. -/
theorem sci_doppler_sq :
    Sci.calculateDopplerEffect ⟨4, 0, 0⟩ ⟨0, 0, 1⟩ 1 *
      Sci.calculateDopplerEffect ⟨4, 0, 0⟩ ⟨0, 0, 1⟩ 1 = 5/3 := by
  rw [sci_doppler_eval]
  have hs : Real.sqrt (15/16) * Real.sqrt (15/16) = 15/16 :=
    Real.mul_self_sqrt (by norm_num)
  have hp : (0:ℝ) < Real.sqrt (15/16) := Real.sqrt_pos.mpr (by norm_num)
  set s := Real.sqrt (15/16) with hsdef
  have hne : s ≠ 0 := ne_of_gt hp
  field_simp
  nlinarith [hs, hp]

/-- The Doppler factor at (4,0,0) / (0,0,1) is positive. -/
theorem sci_doppler_pos :
    0 < Sci.calculateDopplerEffect ⟨4, 0, 0⟩ ⟨0, 0, 1⟩ 1 := by
  rw [sci_doppler_eval]
  have hp : 0 < Real.sqrt (15/16) := Real.sqrt_pos.mpr (by norm_num)
  positivity

/-- In the scientific `diskRender`, once both density guards pass, turning
the beaming toggle on divides the beaming-off output by the cube of the
Doppler factor. -/
theorem sci_beaming_relation (intg ao : ℤ) (dk de gr rt : Bool) (tmp : ℝ)
    (pos : V3) (color : V4) (alpha : ℝ) (viewDir : V3) (time : ℝ)
    (h1 : ¬ (Sci.diskDensityA pos < 0.001))
    (h2 : ¬ (Sci.diskDensityB pos < 0.001)) :
    Sci.diskRender pos color alpha viewDir time
        ⟨intg, ao, dk, de, gr, true, rt, tmp⟩ =
      Sci.diskRender pos color alpha viewDir time
          ⟨intg, ao, dk, de, gr, false, rt, tmp⟩ /
        (Sci.calculateDopplerEffect pos viewDir ao *
          Sci.calculateDopplerEffect pos viewDir ao *
          Sci.calculateDopplerEffect pos viewDir ao) := by
  rw [Sci.diskRender, Sci.diskRender]
  simp [if_neg h1, if_neg h2]

set_option maxHeartbeats 2000000 in
/-- With beaming off, the red channel contributed by the scientific disk at
(4,0,0) is strictly positive (the noise factor is a nonzero rational and the
blackbody color there has a positive red component). -/
theorem sci_off_x_pos :
    0 < (Sci.diskRender ⟨4, 0, 0⟩ 0 1 ⟨0, 0, 1⟩ 0
      ⟨1, 1, true, false, true, false, false, 7500⟩).x := by
  have hs : 0 < Real.sqrt (3/4) := Real.sqrt_pos.mpr (by norm_num)
  rw [Sci.diskRender]
  norm_num [diskDensityA_eval, diskDensityB_eval, toSpherical, matan2,
    Real.arctan_zero, Real.arcsin_zero, length, dot,
    sqrtEq 16 4 (by norm_num) (by norm_num), mpow_two, diskDensityH,
    diskNoiseLODSci, noiseLoop6_eval, redshift_eval_4,
    Sci.getBlackBodyColor, mclamp, max_def, min_def, abs_of_nonneg]

/-!
Claim theorems.
-/

/-- C6: for every ray, `angularMomentumSquared` (`h2 = |pos × dir|²`) is
computed exactly once from the initial position/direction pair before the
first integration step, and the value carried through every iteration of the
marching loop (and passed to the acceleration law by `stepIntegrate`) is
unchanged: after any number of loop iterations it still equals
`dot (cross pos dir) (cross pos dir)` of the initial ray. -/
theorem C6_angular_momentum_invariant (u : Main.Uniforms) (time : ℝ)
    (pos dir : V3) (n : ℕ) :
    ((Main.iterState u time)^[n] (Main.initState pos dir)).h2 =
      dot (cross pos dir) (cross pos dir) := by
  induction n with
  | zero => rfl
  | succ k ih =>
      rw [Function.iterate_succ_apply', Main.iterState]
      exact ih

/-- C7: in every marching iteration, the event-horizon capture check
(`dot(pos,pos) < 1` on the freshly integrated position) runs immediately
after the integration step and before the disk evaluation; when it fires the
loop returns the accumulated color as-is (flagged as captured), with no disk
contribution from that iteration and no starfield composition. -/
theorem C7_capture_check_immediate (u : Main.Uniforms) (time : ℝ) (n : ℕ)
    (s : Main.MarchState)
    (hcap : dot (Main.stepIntegrate u s).1 (Main.stepIntegrate u s).1 < 1) :
    Main.marchLoop u time (n + 1) s = (s.color, true) := by
  rw [Main.marchLoop]
  simp only [hcap, if_pos]

/-- Witness for C7 at a concrete captured ray: a state half a Schwarzschild
radius from the origin with zero direction and zero angular momentum. -/
theorem C7_capture_check_immediate_witness :
    dot (Main.stepIntegrate uDefaults ⟨⟨1/2, 0, 0⟩, ⟨0, 0, 0⟩, 0, 1, 0⟩).1
        (Main.stepIntegrate uDefaults ⟨⟨1/2, 0, 0⟩, ⟨0, 0, 0⟩, 0, 1, 0⟩).1 < 1 ∧
      Main.marchLoop uDefaults 0 (5 + 1) ⟨⟨1/2, 0, 0⟩, ⟨0, 0, 0⟩, 0, 1, 0⟩ =
        ((0 : V4), true) := by
  have hstep : (Main.stepIntegrate uDefaults ⟨⟨1/2, 0, 0⟩, ⟨0, 0, 0⟩, 0, 1, 0⟩).1 =
      ⟨1/2, 0, 0⟩ := by
    norm_num [Main.stepIntegrate, Main.rk4, Main.acceleration, uDefaults, dot]
  have hcap : dot (Main.stepIntegrate uDefaults ⟨⟨1/2, 0, 0⟩, ⟨0, 0, 0⟩, 0, 1, 0⟩).1
      (Main.stepIntegrate uDefaults ⟨⟨1/2, 0, 0⟩, ⟨0, 0, 0⟩, 0, 1, 0⟩).1 < 1 := by
    rw [hstep]
    norm_num [dot]
  exact ⟨hcap, C7_capture_check_immediate uDefaults 0 5 _ hcap⟩

/-- C10: every marching-loop exit other than event-horizon capture (escape
beyond 100, opacity saturation below 0.01, exhausted iteration budget)
composites the procedural sky/starfield, i.e. the result is `skyComposite` of
some final state — which adds the sky color weighted by `1 - color.a` — and
its alpha component is exactly 1. -/
theorem C10_background_composited_alpha_one (u : Main.Uniforms) (time : ℝ)
    (n : ℕ) (s : Main.MarchState)
    (h : (Main.marchLoop u time n s).2 = false) :
    (Main.marchLoop u time n s).1.w = 1 ∧
      ∃ s1 : Main.MarchState,
        (Main.marchLoop u time n s).1 = Main.skyComposite s1 := by
  induction n generalizing s with
  | zero => exact ⟨rfl, s, rfl⟩
  | succ k ih =>
      rw [Main.marchLoop] at h ⊢
      by_cases h1 : dot (Main.stepIntegrate u s).1 (Main.stepIntegrate u s).1 < 1
      · simp only [h1, if_pos] at h
        simp at h
      · simp only [h1, if_neg, if_false] at h ⊢
        by_cases h2 : (Main.iterState u time s).alpha < 0.01
        · simp only [h2, if_pos] at h ⊢
          exact ⟨rfl, Main.iterState u time s, rfl⟩
        · simp only [h2, if_neg, if_false] at h ⊢
          by_cases h3 : length (Main.iterState u time s).pos > 100
          · simp only [h3, if_pos] at h ⊢
            exact ⟨rfl, Main.iterState u time s, rfl⟩
          · simp only [h3, if_neg, if_false] at h ⊢
            exact ih _ h

/-- Witness for C10: the zero-budget run (exhausted iteration count) at a
concrete state is not captured, so the theorem applies. -/
theorem C10_background_composited_alpha_one_witness :
    (Main.marchLoop uDefaults 0 0 ⟨⟨0, 0, 8⟩, ⟨0, 0, -1⟩, 0, 1, 0⟩).2 = false ∧
      ((Main.marchLoop uDefaults 0 0 ⟨⟨0, 0, 8⟩, ⟨0, 0, -1⟩, 0, 1, 0⟩).1.w = 1 ∧
        ∃ s1 : Main.MarchState,
          (Main.marchLoop uDefaults 0 0 ⟨⟨0, 0, 8⟩, ⟨0, 0, -1⟩, 0, 1, 0⟩).1 =
            Main.skyComposite s1) :=
  ⟨rfl, C10_background_composited_alpha_one uDefaults 0 0 _ rfl⟩

/-- C9: for every non-negative bloom threshold, pushing the all-zero HDR
image through the full bloom pipeline (brightness extraction, downsample
pyramid, upsample-and-accumulate, over any level list) yields a bloom
contribution whose RGB components are all zero at every pixel. -/
theorem C9_bloom_zero_on_dark_image (thr : ℝ) (hthr : 0 ≤ thr) (w h : ℕ)
    (levels : List (ℕ × ℕ)) :
    Bloom.RgbZero (Bloom.bloomContribution thr Bloom.zeroImage w h levels) :=
  Bloom.pyramid_rgbzero (Bloom.brightness_rgbzero thr) (w, h) levels

/-- Witness for C9 at the application-default threshold 1.2, a 8x8 source
and a two-level pyramid. -/
theorem C9_bloom_zero_on_dark_image_witness :
    (0 : ℝ) ≤ 1.2 ∧
      Bloom.RgbZero (Bloom.bloomContribution 1.2 Bloom.zeroImage 8 8
        [(4, 4), (2, 2)]) :=
  ⟨by norm_num, C9_bloom_zero_on_dark_image 1.2 (by norm_num) 8 8 [(4, 4), (2, 2)]⟩

/-- C1 counterexample: `calculateRedShift` is not continuous (the claim says
it is): along the x axis it returns values at least 1 everywhere beyond the
horizon but the value at radius 1 is 0 (the in-horizon sentinel arrangement
makes the boundary value degenerate), so it is discontinuous at radius 1. -/
theorem C1_redshift_not_continuous :
    ¬ ContinuousAt (fun t : ℝ => calculateRedShift ⟨t, 0, 0⟩) 1 := by
  intro hc
  have hval : calculateRedShift ⟨(1 : ℝ), 0, 0⟩ = 0 := by
    rw [calculateRedShift]
    have hd : Real.sqrt (dot ⟨(1 : ℝ), 0, 0⟩ ⟨(1 : ℝ), 0, 0⟩) = 1 := by
      apply sqrtEq _ _ (by norm_num)
      simp [dot]
    simp [hd]
  rw [Metric.continuousAt_iff] at hc
  obtain ⟨δ, hδ, hball⟩ := hc (1 / 2) (by norm_num)
  set t := 1 + min δ 1 / 2 with htdef
  have hmin0 : 0 < min δ 1 := lt_min hδ one_pos
  have ht1 : 1 < t := by
    rw [htdef]
    linarith
  have hdist : dist t 1 < δ := by
    rw [Real.dist_eq, htdef]
    rw [abs_of_nonneg (by linarith)]
    have : min δ 1 ≤ δ := min_le_left _ _
    linarith
  have := hball hdist
  rw [Real.dist_eq, hval] at this
  have hge := redshift_ge_one ht1
  rw [abs_of_nonneg (by linarith)] at this
  linarith

/-- C1 (amended): `calculateRedShift` returns exactly 0 for `|p| < 1`; at the
horizon `|p| = 1` the formula's denominator vanishes, so the exact embedding
returns 0 there (the float shader divides by zero); for `|p| > 1` it equals
`1/(1 + (sqrt(1 - 1/|p|) - 1)) = 1/sqrt(1 - 1/|p|)`, every such value is at
least 1 and the values grow without bound as `|p| → 1⁺`; the function is
continuous on the region `|p| > 1` (witnessed along the x axis) and tends to
1 as `|p| → ∞`; it is not continuous at the horizon `|p| = 1` itself. -/
theorem C1_redshift_amended :
    (∀ p : V3, Real.sqrt (dot p p) < 1 → calculateRedShift p = 0) ∧
    calculateRedShift ⟨1, 0, 0⟩ = 0 ∧
    (∀ p : V3, 1 < Real.sqrt (dot p p) →
      calculateRedShift p = 1 / Real.sqrt (1 - 1 / Real.sqrt (dot p p))) ∧
    (∀ t : ℝ, 1 < t → 1 ≤ calculateRedShift ⟨t, 0, 0⟩) ∧
    (∀ M e : ℝ, 0 < e → ∃ t : ℝ, 1 < t ∧ t < 1 + e ∧
      M < calculateRedShift ⟨t, 0, 0⟩) ∧
    ContinuousOn (fun t : ℝ => calculateRedShift ⟨t, 0, 0⟩) (Set.Ioi 1) ∧
    Filter.Tendsto (fun t : ℝ => calculateRedShift ⟨t, 0, 0⟩)
      Filter.atTop (nhds 1) := by
  have hformula : ∀ p : V3, 1 < Real.sqrt (dot p p) →
      calculateRedShift p = 1 / Real.sqrt (1 - 1 / Real.sqrt (dot p p)) := by
    intro p hp
    rw [calculateRedShift]
    simp only [if_neg (not_lt.mpr (le_of_lt hp))]
    rw [show (1 : ℝ) + (Real.sqrt (1 - 1 / Real.sqrt (dot p p)) - 1) =
      Real.sqrt (1 - 1 / Real.sqrt (dot p p)) by ring]
  have hradial : ∀ t : ℝ, 1 < t →
      calculateRedShift ⟨t, 0, 0⟩ = 1 / Real.sqrt (1 - 1 / t) := by
    intro t ht
    have hd : Real.sqrt (dot ⟨t, 0, 0⟩ ⟨t, 0, 0⟩) = t := by
      apply sqrtEq _ _ (by linarith)
      simp [dot]
      ring
    have := hformula ⟨t, 0, 0⟩ (by rw [hd]; exact ht)
    rw [hd] at this
    exact this
  refine ⟨?_, ?_, hformula, fun t ht => redshift_ge_one ht, ?_, ?_, ?_⟩
  · intro p hp
    rw [calculateRedShift]
    simp only [if_pos hp]
  · rw [calculateRedShift]
    have hd : Real.sqrt (dot ⟨(1 : ℝ), 0, 0⟩ ⟨(1 : ℝ), 0, 0⟩) = 1 := by
      apply sqrtEq _ _ (by norm_num)
      simp [dot]
    simp [hd]
  · intro M e he
    set K := max M 0 + 1 with hKdef
    have hK1 : 1 ≤ K := by
      have : (0:ℝ) ≤ max M 0 := le_max_right M 0
      linarith
    have hKpos : 0 < K := lt_of_lt_of_le one_pos hK1
    have hK2 : 0 < K ^ 2 := pow_pos hKpos 2
    have hKM : M < K := lt_of_le_of_lt (le_max_left M 0) (by linarith)
    set d := min (1 / (2 * K ^ 2)) (e / 2) with hddef
    have hdpos : 0 < d :=
      lt_min (one_div_pos.mpr (by linarith)) (by linarith)
    refine ⟨1 + d, by linarith, ?_, ?_⟩
    · have : d ≤ e / 2 := min_le_right _ _
      linarith
    · have ht1 : (1:ℝ) < 1 + d := by linarith
      rw [hradial (1 + d) ht1]
      have harg0 : 0 < 1 - 1 / (1 + d) := by
        have h1 : 1 / (1 + d) < 1 := by
          rw [div_lt_one (by linarith)]
          linarith
        linarith
      have hlt : 1 - 1 / (1 + d) < 1 / K ^ 2 := by
        have hd2 : d ≤ 1 / (2 * K ^ 2) := min_le_left _ _
        have h1 : 1 - 1 / (1 + d) = d / (1 + d) := by
          field_simp
        rw [h1]
        have h2 : d / (1 + d) ≤ d := div_le_self (le_of_lt hdpos) (by linarith)
        have h3 : 1 / (2 * K ^ 2) < 1 / K ^ 2 :=
          one_div_lt_one_div_of_lt hK2 (by linarith)
        linarith
      have hsq : Real.sqrt (1 - 1 / (1 + d)) < 1 / K := by
        have h4 : Real.sqrt (1 - 1 / (1 + d)) < Real.sqrt (1 / K ^ 2) :=
          Real.sqrt_lt_sqrt (le_of_lt harg0) hlt
        rwa [sqrtEq (1 / K ^ 2) (1 / K) (le_of_lt (one_div_pos.mpr hKpos))
          (by rw [div_pow, one_pow])] at h4
      have hspos : 0 < Real.sqrt (1 - 1 / (1 + d)) := Real.sqrt_pos.mpr harg0
      have h5 : 1 / (1 / K) < 1 / Real.sqrt (1 - 1 / (1 + d)) :=
        one_div_lt_one_div_of_lt hspos hsq
      rw [one_div_one_div] at h5
      linarith
  · have hcont : ContinuousOn (fun t : ℝ => 1 / Real.sqrt (1 - 1 / t))
        (Set.Ioi 1) := by
      apply ContinuousOn.div continuousOn_const
      · exact Real.continuous_sqrt.comp_continuousOn
          (continuousOn_const.sub (continuousOn_const.div continuousOn_id
            (fun t ht => ne_of_gt (lt_trans one_pos ht))))
      · intro t ht
        apply ne_of_gt
        apply Real.sqrt_pos.mpr
        have : 1 / t < 1 := by
          rw [div_lt_one (lt_trans one_pos ht)]
          exact ht
        linarith
    exact ContinuousOn.congr hcont (fun t ht => hradial t ht)
  · have hev : (fun t : ℝ => calculateRedShift ⟨t, 0, 0⟩) =ᶠ[Filter.atTop]
        fun t : ℝ => 1 / Real.sqrt (1 - 1 / t) := by
      filter_upwards [Filter.eventually_gt_atTop 1] with t ht
      exact hradial t ht
    rw [Filter.tendsto_congr' hev]
    have h1 : Filter.Tendsto (fun t : ℝ => 1 - 1 / t) Filter.atTop (nhds 1) := by
      have h2 : Filter.Tendsto (fun t : ℝ => 1 / t) Filter.atTop (nhds 0) := by
        simpa [one_div] using
          (tendsto_inv_atTop_zero :
            Filter.Tendsto (fun t : ℝ => t⁻¹) Filter.atTop (nhds 0))
      simpa using tendsto_const_nhds.sub h2
    have h2 : Filter.Tendsto (fun t : ℝ => Real.sqrt (1 - 1 / t))
        Filter.atTop (nhds 1) := by
      have := (Real.continuous_sqrt.tendsto 1).comp h1
      simpa using this
    have h3 := Filter.Tendsto.div
      (tendsto_const_nhds :
        Filter.Tendsto (fun _ : ℝ => (1 : ℝ)) Filter.atTop (nhds 1)) h2 one_ne_zero
    simpa [Pi.div_def, one_div] using h3

/-- Witness for C1: the inside branch at radius 1/2, the outside formula at
radius 4, and a concrete blow-up point within distance 1 of the horizon whose
redshift exceeds 2. -/
theorem C1_redshift_amended_witness :
    calculateRedShift ⟨1/2, 0, 0⟩ = 0 ∧
      calculateRedShift ⟨4, 0, 0⟩ =
        1 / Real.sqrt (1 - 1 / Real.sqrt (dot ⟨4, 0, 0⟩ ⟨4, 0, 0⟩)) ∧
      (0:ℝ) < 1 ∧
      (∃ t : ℝ, 1 < t ∧ t < 1 + 1 ∧ 2 < calculateRedShift ⟨t, 0, 0⟩) := by
  refine ⟨?_, ?_, by norm_num, C1_redshift_amended.2.2.2.2.1 2 1 (by norm_num)⟩
  · exact C1_redshift_amended.1 ⟨1/2, 0, 0⟩ (by
      rw [sqrtEq (dot ⟨1/2, 0, 0⟩ ⟨1/2, 0, 0⟩) (1/2) (by norm_num)
        (by simp [dot]; norm_num)]
      norm_num)
  · exact C1_redshift_amended.2.2.1 ⟨4, 0, 0⟩ (by
      rw [sqrtEq (dot ⟨4, 0, 0⟩ ⟨4, 0, 0⟩) 4 (by norm_num)
        (by simp [dot]; norm_num)]
      norm_num)

/-- C8 counterexample: the temperature-to-RGB map is discontinuous at the
3500K piecewise boundary (the claim says adjacent branches agree to within a
small epsilon): the green channel is at least 0.99 just below 3500K and
exactly 0.8 at 3500K, a jump above 0.19 over one kelvin. -/
theorem C8_blackbody_discontinuous :
    ¬ ContinuousAt (fun temp : ℝ => (Main.getBlackBodyColor temp).y) 3500 ∧
      (Main.getBlackBodyColor 3499).y - (Main.getBlackBodyColor 3500).y >
        19 / 100 := by
  have hval : (Main.getBlackBodyColor 3500).y = 0.8 := by
    rw [Main.getBlackBodyColor]
    norm_num [mclamp]
  constructor
  · intro hc
    rw [Metric.continuousAt_iff] at hc
    obtain ⟨δ, hδ, hball⟩ := hc (1 / 10) (by norm_num)
    set t := 3500 - min δ 1 / 2 with htdef
    have hmin0 : 0 < min δ 1 := lt_min hδ one_pos
    have hmin1 : min δ 1 ≤ 1 := min_le_right _ _
    have hdist : dist t 3500 < δ := by
      rw [Real.dist_eq, htdef, abs_of_nonpos (by linarith)]
      have : min δ 1 ≤ δ := min_le_left _ _
      linarith
    have hb := hball hdist
    rw [Real.dist_eq, hval] at hb
    have hgreen := blackbody_left_green (show (3499 : ℝ) ≤ t by rw [htdef]; linarith)
      (show t < 3500 by rw [htdef]; linarith)
    rw [abs_of_nonneg (by linarith)] at hb
    linarith
  · have h3499 : (Main.getBlackBodyColor 3499).y = 0.3 + 0.7 * 2499 / 2500 := by
      rw [Main.getBlackBodyColor]
      norm_num [mclamp]
    rw [hval, h3499]
    norm_num

/-- C8 (amended): the blackbody map clamps its input to the 1000K-40000K
range (it is invariant under pre-clamping), but it is not continuous at the
piecewise boundaries: at 3500K the green component drops from above 0.99 to
0.8, and at 5000K the blue component jumps from below 0.51 to 1. -/
theorem C8_blackbody_amended :
    (∀ temp : ℝ, Main.getBlackBodyColor temp =
      Main.getBlackBodyColor (mclamp temp 1000 40000)) ∧
    Main.getBlackBodyColor 3500 = ⟨1, 0.8, 0.1, 1⟩ ∧
    (Main.getBlackBodyColor 3499).y > 0.99 ∧
    Main.getBlackBodyColor 5000 = ⟨1, 1, 1, 1⟩ ∧
    (Main.getBlackBodyColor 4999).z < 0.51 := by
  refine ⟨?_, ?_, ?_, ?_, ?_⟩
  · intro temp
    rw [Main.getBlackBodyColor, Main.getBlackBodyColor,
      mclamp_idem _ _ _ (by norm_num)]
  · rw [Main.getBlackBodyColor]
    norm_num [mclamp]
  · have : (Main.getBlackBodyColor 3499).y = 0.3 + 0.7 * 2499 / 2500 := by
      rw [Main.getBlackBodyColor]
      norm_num [mclamp]
    rw [this]
    norm_num
  · rw [Main.getBlackBodyColor]
    norm_num [mclamp]
  · have : (Main.getBlackBodyColor 4999).z = 0.1 + 0.4 * 1499 / 1500 := by
      rw [Main.getBlackBodyColor]
      norm_num [mclamp]
    rw [this]
    norm_num


/-- Doppler factor at the concrete approaching-side input used below. -/
theorem doppler_eval_approaching : calculateDopplerEffect ⟨4, 0, 0⟩ ⟨0, 144, 17⟩ =
    (1 / Real.sqrt (15/16)) * (597/580) := by
  norm_num [calculateDopplerEffect, orbitalVelocity, G, M, c, length, dot, cross,
    normalize,
    sqrtEq 16 4 (by norm_num) (by norm_num),
    sqrtEq (1/16) (1/4) (by norm_num) (by norm_num),
    sqrtEq 21025 145 (by norm_num) (by norm_num)]

/-- Doppler factor at the diametrically opposite (receding) point. -/
theorem doppler_eval_receding : calculateDopplerEffect (-(⟨4, 0, 0⟩ : V3)) ⟨0, 144, 17⟩ =
    (1 / Real.sqrt (15/16)) * (563/580) := by
  norm_num [calculateDopplerEffect, orbitalVelocity, G, M, c, length, dot, cross,
    normalize,
    sqrtEq 16 4 (by norm_num) (by norm_num),
    sqrtEq (1/16) (1/4) (by norm_num) (by norm_num),
    sqrtEq 21025 145 (by norm_num) (by norm_num)]

/-- C3 counterexample: at radius 4 with view direction (0,144,17), the
orbital velocity has positive component along the view direction (the
approaching configuration of the claim), yet the factor at the diametrically
opposite point also exceeds 1 (the claim says it is below 1) and the product
of the two factors exceeds 1 (the claim says it is below 1). -/
theorem C3_doppler_product_counterexample :
    1 < calculateDopplerEffect (-(⟨4, 0, 0⟩ : V3)) ⟨0, 144, 17⟩ ∧
    ¬ (calculateDopplerEffect ⟨4, 0, 0⟩ ⟨0, 144, 17⟩ *
        calculateDopplerEffect (-(⟨4, 0, 0⟩ : V3)) ⟨0, 144, 17⟩ < 1) := by
  have hs2 : Real.sqrt (15/16) * Real.sqrt (15/16) = 15/16 :=
    Real.mul_self_sqrt (by norm_num)
  have hs_pos : (0 : ℝ) < Real.sqrt (15/16) := Real.sqrt_pos.mpr (by norm_num)
  have hs_lt : Real.sqrt (15/16) < 563/580 := by nlinarith
  constructor
  · rw [doppler_eval_receding, div_mul_eq_mul_div, one_mul, lt_div_iff₀ hs_pos]
    linarith
  · push_neg
    rw [doppler_eval_approaching, doppler_eval_receding]
    have hx : (1 / Real.sqrt (15/16)) * (597/580) *
        ((1 / Real.sqrt (15/16)) * (563/580)) =
        (1 / (Real.sqrt (15/16) * Real.sqrt (15/16))) * (336111/336400) := by
      ring
    rw [hx, hs2]
    norm_num

/-- C3 (amended): whenever the orbital velocity at `pos` has positive
component along the normalized view direction (the point is on the
approaching side in the code's sign convention — which forces the radius
beyond 3, where the orbital-speed formula is real), the Doppler factor
exceeds 1, the factor at the diametrically opposite point is strictly
smaller, and the product of the two factors is at least 1 — not below 1 as
the claim states. -/
theorem C3_doppler_amended (pos viewDir : V3)
    (hd : 0 < dot (orbitalVelocity pos) (normalize viewDir)) :
    1 < calculateDopplerEffect pos viewDir ∧
    calculateDopplerEffect (-pos) viewDir < calculateDopplerEffect pos viewDir ∧
    1 ≤ calculateDopplerEffect pos viewDir * calculateDopplerEffect (-pos) viewDir := by
  set vel := orbitalVelocity pos with hveldef
  set nv := normalize viewDir with hnvdef
  set d := dot vel nv with hddef
  -- the orbital velocity is nonzero, hence the orbital-speed square is positive
  have hvel_ne : ¬ (dot vel vel = 0) := by
    intro h0
    have := dot_self_zero h0
    rw [hddef, this] at hd
    simp [dot] at hd
  -- abbreviations from the definition of orbitalVelocity
  set r := length pos with hrdef
  set X := (G * M / r) * (1 - 3 * G * M / (r * c * c)) with hXdef
  have hXsimp : X = (1 / r) * (1 - 3 / r) := by
    rw [hXdef]
    simp [G, M, c]
  set cr := cross ⟨0, 1, 0⟩ pos with hcrdef
  have hvel_eq : vel = (-Real.sqrt X) • normalize cr := by
    rw [hveldef, orbitalVelocity]
  -- the direction factor is a unit vector (else vel would vanish)
  have hcr_pos : 0 < dot cr cr := by
    rcases lt_or_eq_of_le (dot_self_nonneg cr) with h | h
    · exact h
    · exfalso
      apply hvel_ne
      rw [hvel_eq, normalize_zero_of_dot_zero h.symm]
      simp [dot]
  have hdir_unit : dot (normalize cr) (normalize cr) = 1 := dot_normalize_self hcr_pos
  -- β² = X
  have hsqX_pos : 0 < Real.sqrt X := by
    rcases lt_or_eq_of_le (Real.sqrt_nonneg X) with h | h
    · exact h
    · exfalso
      apply hvel_ne
      rw [hvel_eq, ← h]
      simp [dot]
  have hX_pos : 0 < X := Real.sqrt_pos.mp hsqX_pos
  have hbb : dot vel vel = X := by
    rw [hvel_eq]
    simp only [V3.smul_def, dot] at hdir_unit ⊢
    have hsq : Real.sqrt X * Real.sqrt X = X := Real.mul_self_sqrt (le_of_lt hX_pos)
    nlinarith [hdir_unit, hsq]
  -- r > 3
  have hX_pos2 : 0 < (1 / r) * (1 - 3 / r) := hXsimp ▸ hX_pos
  have hr_nonneg : 0 ≤ r := by
    rw [hrdef, length]
    exact Real.sqrt_nonneg _
  have hr_pos : 0 < r := by
    rcases lt_or_eq_of_le hr_nonneg with h | h
    · exact h
    · exfalso
      rw [← h] at hX_pos2
      norm_num at hX_pos2
  have h1r : 0 < 1 / r := by positivity
  have hfall : 0 < 1 - 3 / r := by
    by_contra hcon
    push_neg at hcon
    nlinarith
  have hr3 : 3 < r := by
    have h3r : 3 / r < 1 := by linarith
    rw [div_lt_one hr_pos] at h3r
    exact h3r
  have hX_lt : X < 1 / 3 := by
    rw [hXsimp]
    have h1 : 1 / r < 1 / 3 := one_div_lt_one_div_of_lt (by norm_num) hr3
    have h3 : 1 - 3 / r < 1 := by
      have : 0 < 3 / r := by positivity
      linarith
    nlinarith
  -- the Lorentz factor
  have homX : 0 < 1 - X := by linarith
  have hsq1X : Real.sqrt (1 - X) * Real.sqrt (1 - X) = 1 - X :=
    Real.mul_self_sqrt (le_of_lt homX)
  have hs_pos : 0 < Real.sqrt (1 - X) := Real.sqrt_pos.mpr homX
  have hs_le1 : Real.sqrt (1 - X) ≤ 1 := Real.sqrt_le_one.mpr (by linarith)
  set gam := 1 / Real.sqrt (1 - X) with hgamdef
  have hgam_pos : 0 < gam := by positivity
  have hgam_ge1 : 1 ≤ gam := by
    rw [hgamdef, le_div_iff₀ hs_pos]
    linarith
  -- reduce the two Doppler values
  have hnr1 : ¬ (length pos < 1) := by rw [← hrdef]; push_neg; linarith
  have hnr1' : ¬ (length (-pos) < 1) := by rw [length_neg, ← hrdef]; push_neg; linarith
  have hDpos : calculateDopplerEffect pos viewDir = gam * (1 + d) := by
    rw [doppler_reduce pos viewDir hnr1, ← hveldef, ← hnvdef, ← hddef, hbb, ← hgamdef]
  have hDneg : calculateDopplerEffect (-pos) viewDir = gam * (1 - d) := by
    rw [doppler_reduce (-pos) viewDir hnr1', orbital_neg, ← hveldef, ← hnvdef]
    have h1 : dot (-vel) (-vel) = dot vel vel := by simp [dot]
    have h2 : dot (-vel) nv = -d := by
      rw [hddef]
      simp [dot]
      ring
    rw [h1, h2, hbb, ← hgamdef]
    ring
  -- Cauchy–Schwarz gives d² ≤ X
  have hnv_unit : dot nv nv = 1 := by
    rcases lt_or_eq_of_le (dot_self_nonneg viewDir) with h | h
    · exact dot_normalize_self h
    · exfalso
      rw [hddef, hnvdef, normalize_zero_of_dot_zero h.symm] at hd
      simp [dot] at hd
  have hcs : d ^ 2 ≤ X := by
    have := dot_sq_le vel nv
    rw [hbb, hnv_unit, mul_one] at this
    rw [hddef]
    exact this
  have hkey : (1 - X) * (gam * gam) = 1 := by
    rw [hgamdef, div_mul_div_comm, one_mul, hsq1X]
    field_simp
  clear hveldef hnvdef hddef hrdef hXdef hXsimp hcrdef hvel_eq hbb hX_pos2
    hdir_unit hnv_unit hsqX_pos hX_pos hvel_ne hr_nonneg hr_pos h1r hfall
    hgamdef hsq1X hs_pos hs_le1 hnr1 hnr1' hcr_pos hr3 hX_lt
  clear_value vel nv d r X cr gam
  refine ⟨?_, ?_, ?_⟩
  · rw [hDpos]
    nlinarith
  · rw [hDpos, hDneg]
    nlinarith
  · rw [hDpos, hDneg]
    have hexp : gam * (1 + d) * (gam * (1 - d)) = gam * gam * (1 - d ^ 2) := by ring
    rw [hexp]
    have hA := mul_pos hgam_pos hgam_pos
    have hstep : 0 ≤ (gam * gam) * (X - d ^ 2) :=
      mul_nonneg (le_of_lt hA) (sub_nonneg.mpr hcs)
    nlinarith [hkey, hstep]

/-- Witness for C3 at the concrete approaching-side input. -/
theorem C3_doppler_amended_witness :
    0 < dot (orbitalVelocity ⟨4, 0, 0⟩) (normalize ⟨0, 144, 17⟩) ∧
      (1 < calculateDopplerEffect ⟨4, 0, 0⟩ ⟨0, 144, 17⟩ ∧
        calculateDopplerEffect (-(⟨4, 0, 0⟩ : V3)) ⟨0, 144, 17⟩ <
          calculateDopplerEffect ⟨4, 0, 0⟩ ⟨0, 144, 17⟩ ∧
        1 ≤ calculateDopplerEffect ⟨4, 0, 0⟩ ⟨0, 144, 17⟩ *
          calculateDopplerEffect (-(⟨4, 0, 0⟩ : V3)) ⟨0, 144, 17⟩) := by
  have hd : 0 < dot (orbitalVelocity ⟨4, 0, 0⟩) (normalize ⟨0, 144, 17⟩) := by
    norm_num [orbitalVelocity, G, M, c, length, dot, cross, normalize,
      sqrtEq 16 4 (by norm_num) (by norm_num),
      sqrtEq (1/16) (1/4) (by norm_num) (by norm_num),
      sqrtEq 21025 145 (by norm_num) (by norm_num)]
  exact ⟨hd, C3_doppler_amended ⟨4, 0, 0⟩ ⟨0, 144, 17⟩ hd⟩

set_option maxHeartbeats 2000000 in
/-- C2: the claim says the alpha accumulated by `diskRender` stays within
[0, 1].  It does not: the shader multiplies alpha by
`1 - density * |noise| * 0.3` without clamping, and at pos = (4,0,0)
(with color 0, alpha 1, viewDir (0,0,1), time 0 and the app's default
uniforms) the factor is negative, so a single invocation drives alpha
below 0. -/
theorem C2_alpha_goes_negative :
    (Main.diskRender ⟨4, 0, 0⟩ 0 1 ⟨0, 0, 1⟩ 0 uDefaults).2 < 0 := by
  rw [Main.diskRender]
  norm_num [uDefaults, lengthF2, sqrtEq 16 4 (by norm_num) (by norm_num),
    msmoothstep, mclamp, max_def, min_def, mpow_one_any, mpow_two,
    toSpherical, matan2, Real.arctan_zero, Real.arcsin_zero,
    diskDensityV, diskDensityH, diskNoiseLOD, noiseLoop4_eval, dot,
    abs_of_nonneg]

/-- C4: the claim says that with beaming enabled the contributed color is
multiplied by the cube of the Doppler factor (brightening approaching
matter).  The scientific shader instead divides by the cube: at
pos = (4,0,0), viewDir = (0,0,1) (approaching side, Doppler factor > 1,
its square is exactly 5/3) the beaming-on output differs from the
beaming-off output scaled by the cubed Doppler factor. -/
theorem C4_beaming_counterexample :
    Sci.diskRender ⟨4, 0, 0⟩ 0 1 ⟨0, 0, 1⟩ 0
        ⟨1, 1, true, false, true, true, false, 7500⟩ ≠
      (Sci.calculateDopplerEffect ⟨4, 0, 0⟩ ⟨0, 0, 1⟩ 1 *
        Sci.calculateDopplerEffect ⟨4, 0, 0⟩ ⟨0, 0, 1⟩ 1 *
        Sci.calculateDopplerEffect ⟨4, 0, 0⟩ ⟨0, 0, 1⟩ 1) *
      Sci.diskRender ⟨4, 0, 0⟩ 0 1 ⟨0, 0, 1⟩ 0
        ⟨1, 1, true, false, true, false, false, 7500⟩ := by
  intro heq
  have hA : ¬ (Sci.diskDensityA ⟨4, 0, 0⟩ < 0.001) := by
    rw [diskDensityA_eval]; norm_num
  have hB : ¬ (Sci.diskDensityB ⟨4, 0, 0⟩ < 0.001) := by
    rw [diskDensityB_eval]; norm_num
  have hrel := sci_beaming_relation 1 1 true false true false 7500
    ⟨4, 0, 0⟩ 0 1 ⟨0, 0, 1⟩ 0 hA hB
  rw [hrel] at heq
  have hx := congrArg V4.x heq
  set D := Sci.calculateDopplerEffect ⟨4, 0, 0⟩ ⟨0, 0, 1⟩ 1 with hD
  set ox := (Sci.diskRender ⟨4, 0, 0⟩ 0 1 ⟨0, 0, 1⟩ 0
    ⟨1, 1, true, false, true, false, false, 7500⟩).x with hox
  have hD2 : D * D = 5/3 := sci_doppler_sq
  have hDpos : 0 < D := sci_doppler_pos
  have hoxpos : 0 < ox := sci_off_x_pos
  have hx2 : ox / (D * D * D) = D * D * D * ox := by
    simpa using hx
  rw [div_eq_iff (by positivity : D * D * D ≠ 0)] at hx2
  have hkey : ox = (5/3) * (5/3) * (5/3) * ox := by
    calc ox = D * D * D * ox * (D * D * D) := hx2
    _ = (D * D) * (D * D) * (D * D) * ox := by ring
    _ = (5/3) * (5/3) * (5/3) * ox := by rw [hD2]
  linarith

/-- C4 (amended): in the scientific `diskRender`, whenever both density
guards pass, enabling the beaming toggle *divides* the beaming-off output
by the cube of the Doppler factor (so approaching matter with Doppler
factor > 1 is dimmed, not brightened); the main shader computes
`pow(doppler, 3)` but never applies it at all. -/
theorem C4_beaming_amended (intg ao : ℤ) (dk de gr rt : Bool) (tmp : ℝ)
    (pos : V3) (color : V4) (alpha : ℝ) (viewDir : V3) (time : ℝ)
    (h1 : ¬ (Sci.diskDensityA pos < 0.001))
    (h2 : ¬ (Sci.diskDensityB pos < 0.001)) :
    Sci.diskRender pos color alpha viewDir time
        ⟨intg, ao, dk, de, gr, true, rt, tmp⟩ =
      Sci.diskRender pos color alpha viewDir time
          ⟨intg, ao, dk, de, gr, false, rt, tmp⟩ /
        (Sci.calculateDopplerEffect pos viewDir ao *
          Sci.calculateDopplerEffect pos viewDir ao *
          Sci.calculateDopplerEffect pos viewDir ao) := by
  rw [Sci.diskRender, Sci.diskRender]
  simp [if_neg h1, if_neg h2]

/-- Witness for the amended C4 at pos = (4,0,0). -/
theorem C4_beaming_amended_witness :
    ¬ (Sci.diskDensityA ⟨4, 0, 0⟩ < 0.001) ∧
      ¬ (Sci.diskDensityB ⟨4, 0, 0⟩ < 0.001) ∧
      Sci.diskRender ⟨4, 0, 0⟩ 0 1 ⟨0, 0, 1⟩ 0
          ⟨1, 1, true, false, true, true, false, 7500⟩ =
        Sci.diskRender ⟨4, 0, 0⟩ 0 1 ⟨0, 0, 1⟩ 0
            ⟨1, 1, true, false, true, false, false, 7500⟩ /
          (Sci.calculateDopplerEffect ⟨4, 0, 0⟩ ⟨0, 0, 1⟩ 1 *
            Sci.calculateDopplerEffect ⟨4, 0, 0⟩ ⟨0, 0, 1⟩ 1 *
            Sci.calculateDopplerEffect ⟨4, 0, 0⟩ ⟨0, 0, 1⟩ 1) := by
  have hA : ¬ (Sci.diskDensityA ⟨4, 0, 0⟩ < 0.001) := by
    rw [diskDensityA_eval]; norm_num
  have hB : ¬ (Sci.diskDensityB ⟨4, 0, 0⟩ < 0.001) := by
    rw [diskDensityB_eval]; norm_num
  exact ⟨hA, hB, C4_beaming_amended 1 1 true false true false 7500
    ⟨4, 0, 0⟩ 0 1 ⟨0, 0, 1⟩ 0 hA hB⟩

/-- C5: the claim says the integration scheme applied is the one selected by
the uniforms' `integration_method` (0 = Verlet, 1 = RK4).  The ray marcher
ignores the selector and always calls `rk4`: with the app's default uniforms
the selector is 0 (Verlet), yet the step taken from pos = (3,0,0),
dir = (8,0,0), h2 = 54 is the RK4 step, which differs from the Verlet step
in its x coordinate. -/
theorem C5_integrator_selector_ignored :
    uDefaults.integration_method = 0 ∧
    Main.stepIntegrate uDefaults ⟨⟨3, 0, 0⟩, ⟨8, 0, 0⟩, 0, 1, 54⟩ =
      Main.rk4 ⟨3, 0, 0⟩ 54 ⟨8, 0, 0⟩ uDefaults.step_size uDefaults.gravity ∧
    (Main.stepIntegrate uDefaults ⟨⟨3, 0, 0⟩, ⟨8, 0, 0⟩, 0, 1, 54⟩).1.x ≠
      (Main.verlet ⟨3, 0, 0⟩ 54 ⟨8, 0, 0⟩ uDefaults.step_size
        uDefaults.gravity).1.x := by
  have hstep : Main.stepIntegrate uDefaults ⟨⟨3, 0, 0⟩, ⟨8, 0, 0⟩, 0, 1, 54⟩ =
      Main.rk4 ⟨3, 0, 0⟩ 54 ⟨8, 0, 0⟩ uDefaults.step_size uDefaults.gravity := by
    rw [Main.stepIntegrate]
    norm_num [uDefaults, length, dot, sqrtEq 9 3 (by norm_num) (by norm_num)]
  refine ⟨rfl, hstep, ?_⟩
  rw [hstep]
  have hrk : (Main.rk4 ⟨3, 0, 0⟩ 54 ⟨8, 0, 0⟩ uDefaults.step_size
      uDefaults.gravity).1.x = 40777249394307863/10757001545884920 := by
    norm_num [Main.rk4, uDefaults, acceleration_eval_1, acceleration_eval_2,
      acceleration_eval_3]
  have hvl : (Main.verlet ⟨3, 0, 0⟩ 54 ⟨8, 0, 0⟩ uDefaults.step_size
      uDefaults.gravity).1.x = 303/80 := by
    norm_num [Main.verlet, uDefaults, acceleration_eval_1]
  rw [hrk, hvl]
  norm_num

end BlackHoleGPU
